import Mathlib

/-!
Shallow embedding of the Teacup firmware DDA engine (src/dda.c), as compiled
under the RAMPS v1.3 sample configuration (src/config.ramps-v1.3.h):
`NEW_DDA_CALCULATIONS` and `ACCELERATION_RAMPING` are defined, `E_ABSOLUTE`,
`ACCELERATION_REPRAP`, `ACCELERATION_TEMPORAL` and `DC_EXTRUDER` are not,
`ACCELERATION` is 400 and `F_CPU` is 16000000 (so `TIME_SCALING` is 16000).

Machine integers: all `uint32_t` arithmetic is modelled on `Nat` with an
explicit reduction modulo 2^32 (`u32`) at every operation whose C result can
wrap; `int32_t` values are modelled on `Int`, and each C cast between the two
is made explicit (`toInt32`, `u32i`).  Positions are `int32_t`, modelled as
`Int` (the C code is overflow-free on them for in-range coordinates).

Hardware effects (`setTimer`, step pulses, direction and enable outputs) are
recorded in the returned values instead of performed: the step interrupt
additionally carries per-axis cumulative pulse counters, which increment
exactly when the corresponding `x_step()` / `y_step()` / `z_step()` /
`e_step()` call fires in the C code.

Code of the repository that the claims need but that is not under src/
(the helpers from dda_util.c and the unit conversion macro) is modelled from
the spec; each such definition is marked `Modelled from the spec:`.
-/

/-- Reduction modulo 2^32: the value of a `uint32_t` computation. -/
def u32 (n : Nat) : Nat := n % 4294967296

/-- Reinterpret an `int32_t` result as `uint32_t` (two's complement), as done
when the C code stores a signed intermediate into an unsigned field. -/
def u32i (i : Int) : Nat := (i % 4294967296).toNat

/-- Reinterpret a `uint32_t` value as `int32_t` (two's complement cast). -/
def toInt32 (n : Nat) : Int :=
  if n % 4294967296 < 2147483648 then ((n % 4294967296 : Nat) : Int)
  else ((n % 4294967296 : Nat) : Int) - 4294967296

/-- The TARGET struct of dda.h: a position in steps for X, Y, Z, E plus the
feed rate F (mm/min, unsigned). -/
structure TARGET where
  X : Int
  Y : Int
  Z : Int
  E : Int
  F : Nat
deriving Repr, DecidableEq

/-- Build-time drive-train constants that dda.c reads from the configuration
headers (which are outside src/): microns per motor step and the minimum
number of IO clocks per step (`MIN_CLOCKS_PER_STEP_x`, derived from the rated
maximum speed) for each axis.  They are inputs to the planner. -/
structure Config where
  um_per_step_X : Nat
  um_per_step_Y : Nat
  um_per_step_Z : Nat
  um_per_step_E : Nat
  min_clocks_X : Nat
  min_clocks_Y : Nat
  min_clocks_Z : Nat
  min_clocks_E : Nat
deriving Repr, DecidableEq

/-- The DDA move record of dda.h, restricted to the fields the ramping build
actually uses.  `allflags = 0` at creation clears `live` and `nullmove`. -/
structure DDA where
  endpoint : TARGET
  x_delta : Nat
  y_delta : Nat
  z_delta : Nat
  e_delta : Nat
  x_direction : Bool
  y_direction : Bool
  z_direction : Bool
  e_direction : Bool
  total_steps : Nat
  nullmove : Bool
  live : Bool
  c0 : Nat
  c_min : Nat
  rampup_steps : Nat
  rampdown_steps : Nat
deriving Repr, DecidableEq

/-- The MOVE_STATE singleton of dda.h: per-axis Bresenham accumulators and
remaining-step counters, ramp progress `step_no`, ramp slope counter `n`
(signed) and the current step period `c` (unsigned, stored shifted left 8). -/
structure MOVE_STATE where
  x_counter : Int
  y_counter : Int
  z_counter : Int
  e_counter : Int
  x_steps : Nat
  y_steps : Nat
  z_steps : Nat
  e_steps : Nat
  step_no : Nat
  n : Int
  c : Nat
deriving Repr, DecidableEq

/-- Modelled from the spec: `STEPS_TO_UM` (config_macros.h, not under src/)
converts a step count of one axis into microns of travel using that axis's
microns-per-step constant, in `uint32_t` arithmetic. -/
def steps_to_um (um n : Nat) : Nat := u32 (um * n)

/-- Modelled from the spec: `approx_distance_2d` (dda_util.c, not under src/)
is the planner's 2D approximation of the Euclidean length of a vector, here
rendered as the integer square root of the sum of squares. -/
def approx_distance_2d (a b : Nat) : Nat := Nat.sqrt (a * a + b * b)

/-- Modelled from the spec: `approx_distance_3d` (dda_util.c, not under src/)
is the planner's 3D approximation of the Euclidean length of a vector. -/
def approx_distance_3d (a b c : Nat) : Nat := Nat.sqrt (a * a + b * b + c * c)

/-- Modelled from the spec: `int_sqrt` (dda_util.c, not under src/) is the
integer square root used in the `c0` formula. -/
def int_sqrt (n : Nat) : Nat := Nat.sqrt n

/-- dda_create lines 112-119: `total_steps` is computed by a chain of
comparisons starting from `x_delta`. -/
def total_steps_of (xd yd zd ed : Nat) : Nat :=
  let t1 := xd
  let t2 := if yd > t1 then yd else t1
  let t3 := if zd > t2 then zd else t2
  if ed > t3 then ed else t3

/-- dda_create lines 137-148: the planar (X/Y/Z-only) part of the move
distance in microns, chosen by the cheapest applicable approximation. -/
def planar_distance (cfg : Config) (xd yd zd : Nat) : Nat :=
  if zd = 0 then
    if xd = 0 then steps_to_um cfg.um_per_step_Y yd
    else if yd = 0 then steps_to_um cfg.um_per_step_X xd
    else approx_distance_2d (steps_to_um cfg.um_per_step_X xd)
      (steps_to_um cfg.um_per_step_Y yd)
  else if xd = 0 ∧ yd = 0 then steps_to_um cfg.um_per_step_Z zd
  else approx_distance_3d (steps_to_um cfg.um_per_step_X xd)
    (steps_to_um cfg.um_per_step_Y yd) (steps_to_um cfg.um_per_step_Z zd)

/-- dda_create line 153: the extruder travel in microns. -/
def e_feed_um (cfg : Config) (ed : Nat) : Nat :=
  steps_to_um cfg.um_per_step_E ed

/-- dda_create line 155: the decision to fold the extruder travel into the
move distance, `distance < (e_feed << 3)` in `uint32_t` arithmetic. -/
def fold_e (cfg : Config) (xd yd zd ed : Nat) : Bool :=
  decide (planar_distance cfg xd yd zd < u32 (8 * e_feed_um cfg ed))

/-- dda_create lines 150-157: the final move distance in microns, with the
extruder travel folded in as a second dimension when `fold_e` holds. -/
def distance_um (cfg : Config) (xd yd zd ed : Nat) : Nat :=
  if fold_e cfg xd yd zd ed then
    approx_distance_2d (planar_distance cfg xd yd zd) (e_feed_um cfg ed)
  else planar_distance cfg xd yd zd

/-- dda_create line 187 (`NEW_DDA_CALCULATIONS`): `move_duration =
distance * 60`. -/
def move_duration_of (cfg : Config) (xd yd zd ed : Nat) : Nat :=
  u32 (distance_um cfg xd yd zd ed * 60)

/-- dda_create lines 225-253: the limiting number of IO clocks for the whole
move: the duration at the requested feed (`TIME_SCALING = 16000`), raised to
each axis's minimum clocks (`delta * MIN_CLOCKS_PER_STEP`) if larger. -/
def limiting_ticks (cfg : Config) (xd yd zd ed F : Nat) : Nat :=
  let l0 := u32 (16000 * (move_duration_of cfg xd yd zd ed / F))
  let mx := u32 (xd * cfg.min_clocks_X)
  let l1 := if mx > l0 then mx else l0
  let my := u32 (yd * cfg.min_clocks_Y)
  let l2 := if my > l1 then my else l1
  let mz := u32 (zd * cfg.min_clocks_Z)
  let l3 := if mz > l2 then mz else l2
  let me := u32 (ed * cfg.min_clocks_E)
  if me > l3 then me else l3

/-- dda_create line 254: `c_limit = limiting_total_clock_ticks /
total_steps`. -/
def c_limit_of (cfg : Config) (xd yd zd ed F : Nat) : Nat :=
  limiting_ticks cfg xd yd zd ed F / total_steps_of xd yd zd ed

/-- dda_create line 262: the argument of `int_sqrt` in the `c0` formula,
`(1000 * ACCELERATION * total_steps) / distance` with `ACCELERATION = 400`.
(The C source computes the product in `double`; for the magnitudes the
firmware supports the truncated quotient equals this integer quotient.) -/
def c0_sqrt_arg (cfg : Config) (xd yd zd ed : Nat) : Nat :=
  400000 * total_steps_of xd yd zd ed / distance_um cfg xd yd zd ed

/-- dda_create line 262: `c0 = (F_CPU / int_sqrt(...)) << 8`. -/
def c0_of (cfg : Config) (xd yd zd ed : Nat) : Nat :=
  u32 ((16000000 / int_sqrt (c0_sqrt_arg cfg xd yd zd ed)) * 256)

/-- dda_create line 336 (`NEW_DDA_CALCULATIONS`): `c_min = c_limit << 8`. -/
def c_min_of (cfg : Config) (xd yd zd ed F : Nat) : Nat :=
  u32 (c_limit_of cfg xd yd zd ed F * 256)

/-- dda_create lines 352-373: the staged fixed-point computation of the
natural ramp length, before clipping. -/
def rampup_raw (cfg : Config) (xd yd zd ed F : Nat) : Nat :=
  let x1 := 16000000 / c_limit_of cfg xd yd zd ed F
  let x2 := u32 (x1 * x1)
  let x3 := x2 / 4096
  let x4 := u32 (x3 * distance_um cfg xd yd zd ed)
  x4 / (u32 (12500 * total_steps_of xd yd zd ed) / 64)

/-- dda_create lines 373-377: `rampup_steps`, clipped to `total_steps / 2`
when the move is too short for a full ramp up and down. -/
def rampup_of (cfg : Config) (xd yd zd ed F : Nat) : Nat :=
  let x := rampup_raw cfg xd yd zd ed F
  if 2 * x > total_steps_of xd yd zd ed then total_steps_of xd yd zd ed / 2
  else x

/-- dda_create line 380: `rampdown_steps = total_steps - rampup_steps` (the
step number at which the ramp down starts). -/
def rampdown_of (cfg : Config) (xd yd zd ed F : Nat) : Nat :=
  total_steps_of xd yd zd ed - rampup_of cfg xd yd zd ed F

/-- Result of `dda_create`: the move record, the updated `startpoint`
(relative-E build: its E is reset to 0, lines 398-403), and whether the
stepper drivers were powered up (lines 129-134, non-null branch only). -/
structure CreateResult where
  dda : DDA
  startpoint : TARGET
  steppers_on : Bool
deriving Repr, DecidableEq

/-- dda_create (lines 79-404): build a move record from the previous
`startpoint` and the target, and advance `startpoint`.  `prev` is the
contents of the reused queue slot being overwritten: `dda->allflags = 0`
clears only the flag byte, and in the null branch (lines 124-126) the
timing fields `c0`, `c_min`, `rampup_steps`, `rampdown_steps` are never
written, so a nullmove keeps the stale values from the slot's previous
occupant. -/
def dda_create (cfg : Config) (prev : DDA) (sp t : TARGET) : CreateResult :=
  let xd := (t.X - sp.X).natAbs
  let yd := (t.Y - sp.Y).natAbs
  let zd := (t.Z - sp.Z).natAbs
  let ed := (t.E - sp.E).natAbs
  let total := total_steps_of xd yd zd ed
  let newsp : TARGET := { X := t.X, Y := t.Y, Z := t.Z, E := 0, F := t.F }
  if total = 0 then
    { dda := { endpoint := t
               x_delta := xd
               y_delta := yd
               z_delta := zd
               e_delta := ed
               x_direction := decide (sp.X ≤ t.X)
               y_direction := decide (sp.Y ≤ t.Y)
               z_direction := decide (sp.Z ≤ t.Z)
               e_direction := decide (sp.E ≤ t.E)
               total_steps := total
               nullmove := true
               live := false
               c0 := prev.c0
               c_min := prev.c_min
               rampup_steps := prev.rampup_steps
               rampdown_steps := prev.rampdown_steps }
      startpoint := newsp
      steppers_on := false }
  else
    { dda := { endpoint := t
               x_delta := xd
               y_delta := yd
               z_delta := zd
               e_delta := ed
               x_direction := decide (sp.X ≤ t.X)
               y_direction := decide (sp.Y ≤ t.Y)
               z_direction := decide (sp.Z ≤ t.Z)
               e_direction := decide (sp.E ≤ t.E)
               total_steps := total
               nullmove := false
               live := false
               c0 := c0_of cfg xd yd zd ed
               c_min := c_min_of cfg xd yd zd ed t.F
               rampup_steps := rampup_of cfg xd yd zd ed t.F
               rampdown_steps := rampdown_of cfg xd yd zd ed t.F }
      startpoint := newsp
      steppers_on := true }

/-- Result of `dda_start`: the (possibly activated) record, the move state,
the current position, the timer programming (`none` when `setTimer` is not
called), and the direction/Z-enable outputs. -/
structure StartResult where
  dda : DDA
  ms : MOVE_STATE
  pos : TARGET
  timer : Option Nat
  dirs_set : Bool
  z_enabled : Bool
deriving Repr, DecidableEq

/-- dda_start (lines 417-466): a nullmove only updates the feed rate; a real
move sets directions, initialises MOVE_STATE (Bresenham counters at
`-(total_steps >> 1)`, remaining steps at the deltas, `step_no = 0`,
`c = c0`; `n` is NOT reset), marks the record live and programs the timer
with `max(c_min, c) >> 8`. -/
def dda_start (dda : DDA) (ms : MOVE_STATE) (pos : TARGET) : StartResult :=
  if dda.nullmove then
    { dda := dda
      ms := ms
      pos := { pos with F := dda.endpoint.F }
      timer := none
      dirs_set := false
      z_enabled := false }
  else
    let ctr : Int := -((dda.total_steps / 2 : Nat) : Int)
    let ms2 : MOVE_STATE := { x_counter := ctr
                              y_counter := ctr
                              z_counter := ctr
                              e_counter := ctr
                              x_steps := dda.x_delta
                              y_steps := dda.y_delta
                              z_steps := dda.z_delta
                              e_steps := dda.e_delta
                              step_no := 0
                              n := ms.n
                              c := dda.c0 }
    { dda := { dda with live := true }
      ms := ms2
      pos := pos
      timer := some ((if dda.c_min > ms2.c then dda.c_min else ms2.c) / 256)
      dirs_set := true
      z_enabled := dda.z_delta != 0 }

/-- One axis of the Bresenham loop in dda_step (for example lines 483-492):
while steps remain, subtract the delta from the accumulator; on underflow
emit a pulse, decrement the remaining steps and add `total_steps` back. -/
structure AxisRes where
  steps : Nat
  counter : Int
  pulse : Bool
deriving Repr, DecidableEq

/-- The per-axis step action of dda_step. -/
def axis_step (delta total steps : Nat) (counter : Int) : AxisRes :=
  if steps ≠ 0 then
    let c2 := counter - (delta : Int)
    if c2 < 0 then { steps := steps - 1, counter := c2 + (total : Int), pulse := true }
    else { steps := steps, counter := c2, pulse := false }
  else { steps := steps, counter := counter, pulse := false }

/-- dda_step lines 561-587 (`ACCELERATION_RAMPING`): the ramp recalculation.
Returns the new `(n, c)`; `step_no` is advanced by the caller.  The two
casts to `int32_t` and the store back into the unsigned `c` are explicit. -/
def ramp_update (rampup rampdown : Nat) (n : Int) (c : Nat) (step_no : Nat) :
    Int × Nat :=
  if step_no < rampup then
    let nf := if n < 0 then -2 - n else n
    let n2 := nf + 4
    (n2, u32i (toInt32 c - Int.tdiv (toInt32 (c * 2)) n2))
  else if step_no > rampdown then
    let nf := if n > 0 then -2 - n else n
    let n2 := nf + 4
    (n2, u32i (toInt32 c - Int.tdiv (toInt32 (c * 2)) n2))
  else (n, c)

/-- The whole interrupt-visible state: the live record, the move state, the
current position, the last timer programming, and ghost cumulative pulse
counters (one per `x_step()`-style call in dda_step). -/
structure Sys where
  dda : DDA
  ms : MOVE_STATE
  pos : TARGET
  timer : Nat
  xPulses : Nat
  yPulses : Nat
  zPulses : Nat
  ePulses : Nat
deriving Repr, DecidableEq

/-- The X-axis Bresenham action of dda_step (lines 483-492). -/
def axis_x (s : Sys) : AxisRes :=
  axis_step s.dda.x_delta s.dda.total_steps s.ms.x_steps s.ms.x_counter

/-- The Y-axis Bresenham action of dda_step (lines 494-503). -/
def axis_y (s : Sys) : AxisRes :=
  axis_step s.dda.y_delta s.dda.total_steps s.ms.y_steps s.ms.y_counter

/-- The Z-axis Bresenham action of dda_step (lines 505-514). -/
def axis_z (s : Sys) : AxisRes :=
  axis_step s.dda.z_delta s.dda.total_steps s.ms.z_steps s.ms.z_counter

/-- The E-axis Bresenham action of dda_step (lines 516-524). -/
def axis_e (s : Sys) : AxisRes :=
  axis_step s.dda.e_delta s.dda.total_steps s.ms.e_steps s.ms.e_counter

/-- The `did_step` flag of dda_step: some axis emitted a pulse this tick. -/
def did_step_of (s : Sys) : Bool :=
  (axis_x s).pulse || (axis_y s).pulse || (axis_z s).pulse || (axis_e s).pulse

/-- The completion test of dda_step lines 596-603: no pulse this tick and no
remaining steps on any axis. -/
def finished_of (s : Sys) : Bool :=
  !did_step_of s && ((axis_x s).steps == 0 && ((axis_y s).steps == 0 &&
    ((axis_z s).steps == 0 && (axis_e s).steps == 0)))

/-- The ramp recalculation of dda_step applied to the current state. -/
def ramp_of (s : Sys) : Int × Nat :=
  ramp_update s.dda.rampup_steps s.dda.rampdown_steps s.ms.n s.ms.c
    s.ms.step_no

/-- dda_step (lines 480-637): one timer interrupt.  Steps each axis, runs the
ramp recalculation, detects completion (no pulse and all remaining counts
zero: clear `live`, reset E under relative-E mode, finalise F), and programs
the timer with `max(c_min, c) >> 8`. -/
def dda_step (s : Sys) : Sys :=
  { dda := if finished_of s then { s.dda with live := false } else s.dda
    ms := { x_counter := (axis_x s).counter
            y_counter := (axis_y s).counter
            z_counter := (axis_z s).counter
            e_counter := (axis_e s).counter
            x_steps := (axis_x s).steps
            y_steps := (axis_y s).steps
            z_steps := (axis_z s).steps
            e_steps := (axis_e s).steps
            step_no := s.ms.step_no + 1
            n := (ramp_of s).1
            c := (ramp_of s).2 }
    pos := if finished_of s then { s.pos with E := 0, F := s.dda.endpoint.F }
      else s.pos
    timer := (if s.dda.c_min > (ramp_of s).2 then s.dda.c_min
      else (ramp_of s).2) / 256
    xPulses := s.xPulses + (if (axis_x s).pulse then 1 else 0)
    yPulses := s.yPulses + (if (axis_y s).pulse then 1 else 0)
    zPulses := s.zPulses + (if (axis_z s).pulse then 1 else 0)
    ePulses := s.ePulses + (if (axis_e s).pulse then 1 else 0) }

/-- update_position (lines 640-669): the position tracker.  A no-op unless
the record is live; X, Y, Z are derived from the endpoint, the direction and
the remaining steps, while E (relative-E build, `E_ABSOLUTE` undefined) is
the raw remaining extruder step count. -/
def update_position (dda : DDA) (ms : MOVE_STATE) (pos : TARGET) : TARGET :=
  if dda.live then
    { X := if dda.x_direction then dda.endpoint.X - (ms.x_steps : Int)
        else dda.endpoint.X + (ms.x_steps : Int),
      Y := if dda.y_direction then dda.endpoint.Y - (ms.y_steps : Int)
        else dda.endpoint.Y + (ms.y_steps : Int),
      Z := if dda.z_direction then dda.endpoint.Z - (ms.z_steps : Int)
        else dda.endpoint.Z + (ms.z_steps : Int),
      E := (ms.e_steps : Int),
      F := pos.F }
  else pos

/-- Iterated timer interrupts. -/
def stepN : Nat → Sys → Sys
  | 0, s => s
  | k + 1, s => dda_step (stepN k s)

/-- Package a `StartResult` as the interrupt-visible state (ghost pulse
counters start at zero). -/
def mkSys (r : StartResult) : Sys :=
  { dda := r.dda, ms := r.ms, pos := r.pos, timer := r.timer.getD 0,
    xPulses := 0, yPulses := 0, zPulses := 0, ePulses := 0 }

/-- The Bresenham accumulator start value, `-(total_steps >> 1)`. -/
def c0init (total : Nat) : Int := -((total / 2 : Nat) : Int)

/-- One axis in isolation: `(remaining steps, accumulator)` after `k`
interrupts, starting from `(delta, -(total >> 1))`. -/
def axisN (delta total : Nat) : Nat → Nat × Int
  | 0 => (delta, c0init total)
  | k + 1 =>
    let r := axis_step delta total (axisN delta total k).1 (axisN delta total k).2
    (r.steps, r.counter)

/-- The state reached by starting a (live) record `d` with fresh Bresenham
state, feed-through position `pos`, inherited slope counter `n0`, period `cc`
and last timer value `t0`. -/
def runSys (d : DDA) (pos : TARGET) (n0 : Int) (cc t0 : Nat) : Sys :=
  { dda := d
    ms := { x_counter := c0init d.total_steps
            y_counter := c0init d.total_steps
            z_counter := c0init d.total_steps
            e_counter := c0init d.total_steps
            x_steps := d.x_delta
            y_steps := d.y_delta
            z_steps := d.z_delta
            e_steps := d.e_delta
            step_no := 0
            n := n0
            c := cc }
    pos := pos
    timer := t0
    xPulses := 0
    yPulses := 0
    zPulses := 0
    ePulses := 0 }

/-- Conclusion of claim C1, for the move planned from `sp` to `t` and then
activated: after `total_steps` interrupts every axis has emitted exactly its
planned delta many pulses, the position tracker reports the endpoint on X, Y
and Z with the relative extruder at zero, and the next interrupt retires the
record, resetting `current_position.E` to zero and finalising F. -/
def C1_concl (cfg : Config) (prev : DDA) (sp t : TARGET) (ms : MOVE_STATE)
    (pos : TARGET) :
    Prop :=
  let d := (dda_create cfg prev sp t).dda
  let sT := stepN d.total_steps (mkSys (dda_start d ms pos))
  sT.xPulses = d.x_delta ∧ sT.yPulses = d.y_delta ∧
  sT.zPulses = d.z_delta ∧ sT.ePulses = d.e_delta ∧
  (update_position sT.dda sT.ms sT.pos).X = d.endpoint.X ∧
  (update_position sT.dda sT.ms sT.pos).Y = d.endpoint.Y ∧
  (update_position sT.dda sT.ms sT.pos).Z = d.endpoint.Z ∧
  (update_position sT.dda sT.ms sT.pos).E = 0 ∧
  (dda_step sT).dda.live = false ∧
  (dda_step sT).pos.E = 0 ∧
  (dda_step sT).pos.F = d.endpoint.F

/-- Conclusion of claim C2: `total_steps` is the maximum of the four per-axis
deltas, and the move's stepping takes exactly `total_steps` interrupts: before
then some axis still has remaining steps, at `total_steps` none has, the
record is still live there, and the next interrupt retires it. -/
def C2_concl (cfg : Config) (prev : DDA) (sp t : TARGET) (ms : MOVE_STATE)
    (pos : TARGET) :
    Prop :=
  let d := (dda_create cfg prev sp t).dda
  let s0 := mkSys (dda_start d ms pos)
  d.total_steps =
    Nat.max (Nat.max (Nat.max d.x_delta d.y_delta) d.z_delta) d.e_delta ∧
  d.x_delta = (t.X - sp.X).natAbs ∧ d.y_delta = (t.Y - sp.Y).natAbs ∧
  d.z_delta = (t.Z - sp.Z).natAbs ∧ d.e_delta = (t.E - sp.E).natAbs ∧
  (∀ k, k < d.total_steps →
    ¬((stepN k s0).ms.x_steps = 0 ∧ (stepN k s0).ms.y_steps = 0 ∧
      (stepN k s0).ms.z_steps = 0 ∧ (stepN k s0).ms.e_steps = 0)) ∧
  (stepN d.total_steps s0).ms.x_steps = 0 ∧
  (stepN d.total_steps s0).ms.y_steps = 0 ∧
  (stepN d.total_steps s0).ms.z_steps = 0 ∧
  (stepN d.total_steps s0).ms.e_steps = 0 ∧
  (stepN d.total_steps s0).dda.live = true ∧
  (dda_step (stepN d.total_steps s0)).dda.live = false

/-- Conclusion of claim C3, for one step-generator invocation in ramping
mode: `step_no` always advances; below `rampup_steps` the slope counter is
recalculated (sign forced so that the count used in the division is
positive) and the period follows the constant-acceleration recurrence
`c - (c*2)/n`; above `rampdown_steps` the sign adjustment yields a negative
slope value before the `+4`, with the same recurrence (modulo the unsigned
store); otherwise both are held. -/
def C3_concl (s : Sys) : Prop :=
  (dda_step s).ms.step_no = s.ms.step_no + 1 ∧
  (s.ms.step_no < s.dda.rampup_steps →
    ((dda_step s).ms.n = (if s.ms.n < 0 then -2 - s.ms.n else s.ms.n) + 4 ∧
     0 < (dda_step s).ms.n ∧
     ((dda_step s).ms.c : Int) =
       (s.ms.c : Int) - Int.tdiv (2 * (s.ms.c : Int)) (dda_step s).ms.n)) ∧
  (¬s.ms.step_no < s.dda.rampup_steps →
    s.dda.rampdown_steps < s.ms.step_no →
    ((if 0 < s.ms.n then -2 - s.ms.n else s.ms.n) < 0 ∧
     (dda_step s).ms.n = (if 0 < s.ms.n then -2 - s.ms.n else s.ms.n) + 4 ∧
     (dda_step s).ms.c =
       u32i ((s.ms.c : Int) -
         Int.tdiv (2 * (s.ms.c : Int)) (dda_step s).ms.n))) ∧
  (¬s.ms.step_no < s.dda.rampup_steps →
    ¬s.dda.rampdown_steps < s.ms.step_no →
    (dda_step s).ms.n = s.ms.n ∧ (dda_step s).ms.c = s.ms.c)

/-- Conclusion of claim C4: the timer is programmed with `max(c_min, c) >> 8`
both at activation of a non-null move and at the end of every
step-generator invocation, hence never below `c_min >> 8`. -/
def C4_concl (dda : DDA) (ms : MOVE_STATE) (pos : TARGET) (s : Sys) : Prop :=
  (dda_start dda ms pos).timer = some (Nat.max dda.c_min dda.c0 / 256) ∧
  (dda_step s).timer = Nat.max s.dda.c_min (dda_step s).ms.c / 256 ∧
  s.dda.c_min / 256 ≤ (dda_step s).timer

/-- Conclusion of claim C7 for a target equal to the planning origin on all
four axes: the record is a nullmove with zero deltas, the steppers are not
powered up, and activating it only updates the feed rate: the record stays
dead, no timer is programmed, no direction or Z-enable output is touched,
and the move state is unchanged. -/
def C7_concl (cfg : Config) (prev : DDA) (sp t : TARGET) (ms : MOVE_STATE)
    (pos : TARGET) :
    Prop :=
  let cr := dda_create cfg prev sp t
  let r := dda_start cr.dda ms pos
  cr.dda.nullmove = true ∧
  cr.dda.x_delta = 0 ∧ cr.dda.y_delta = 0 ∧ cr.dda.z_delta = 0 ∧
  cr.dda.e_delta = 0 ∧
  cr.steppers_on = false ∧
  r.dda.live = false ∧
  r.timer = none ∧
  r.dirs_set = false ∧
  r.z_enabled = false ∧
  r.ms = ms ∧
  r.pos = { pos with F := t.F }

/-- Sanity of the planner's inputs for claim C8: positive steps-per-micron
and minimum-clock constants, their contributions within `uint32_t` range,
the microns-per-step budget that keeps the `c0` formula's quotient positive,
and a positive requested feed rate. -/
def C8_sane (cfg : Config) (sp t : TARGET) : Prop :=
  1 ≤ cfg.um_per_step_X ∧ 1 ≤ cfg.um_per_step_Y ∧ 1 ≤ cfg.um_per_step_Z ∧
  1 ≤ cfg.um_per_step_E ∧
  1 ≤ cfg.min_clocks_X ∧ 1 ≤ cfg.min_clocks_Y ∧ 1 ≤ cfg.min_clocks_Z ∧
  1 ≤ cfg.min_clocks_E ∧
  cfg.um_per_step_X + cfg.um_per_step_Y + cfg.um_per_step_Z +
    cfg.um_per_step_E ≤ 400000 ∧
  cfg.um_per_step_X * (t.X - sp.X).natAbs < 536870912 ∧
  cfg.um_per_step_Y * (t.Y - sp.Y).natAbs < 536870912 ∧
  cfg.um_per_step_Z * (t.Z - sp.Z).natAbs < 536870912 ∧
  cfg.um_per_step_E * (t.E - sp.E).natAbs < 536870912 ∧
  (t.X - sp.X).natAbs * cfg.min_clocks_X < 4294967296 ∧
  (t.Y - sp.Y).natAbs * cfg.min_clocks_Y < 4294967296 ∧
  (t.Z - sp.Z).natAbs * cfg.min_clocks_Z < 4294967296 ∧
  (t.E - sp.E).natAbs * cfg.min_clocks_E < 4294967296 ∧
  12500 * total_steps_of (t.X - sp.X).natAbs (t.Y - sp.Y).natAbs
    (t.Z - sp.Z).natAbs (t.E - sp.E).natAbs < 4294967296 ∧
  1 ≤ t.F

/-- Conclusion of claim C8: each divisor reached by the planner's timing
computation in the non-null branch is nonzero: the move distance, the
`c_limit` quotient, the integer square root in the `c0` formula, and the
staged ramp-length divisor. -/
def C8_concl (cfg : Config) (sp t : TARGET) : Prop :=
  let xd := (t.X - sp.X).natAbs
  let yd := (t.Y - sp.Y).natAbs
  let zd := (t.Z - sp.Z).natAbs
  let ed := (t.E - sp.E).natAbs
  distance_um cfg xd yd zd ed ≠ 0 ∧
  c_limit_of cfg xd yd zd ed t.F ≠ 0 ∧
  int_sqrt (c0_sqrt_arg cfg xd yd zd ed) ≠ 0 ∧
  u32 (12500 * total_steps_of xd yd zd ed) / 64 ≠ 0

/-- Conclusion of claim C10: on a live record the position tracker sets E to
the raw remaining extruder step count (relative-E build) while deriving X, Y
and Z from the endpoint, the direction flag and the remaining steps; F is
left alone. -/
def C10_concl (dda : DDA) (ms : MOVE_STATE) (pos : TARGET) : Prop :=
  (update_position dda ms pos).E = (ms.e_steps : Int) ∧
  (update_position dda ms pos).X =
    (if dda.x_direction then dda.endpoint.X - (ms.x_steps : Int)
     else dda.endpoint.X + (ms.x_steps : Int)) ∧
  (update_position dda ms pos).Y =
    (if dda.y_direction then dda.endpoint.Y - (ms.y_steps : Int)
     else dda.endpoint.Y + (ms.y_steps : Int)) ∧
  (update_position dda ms pos).Z =
    (if dda.z_direction then dda.endpoint.Z - (ms.z_steps : Int)
     else dda.endpoint.Z + (ms.z_steps : Int)) ∧
  (update_position dda ms pos).F = pos.F

/-! Basic facts about the planner's step-count computation. -/

/-- The chained comparison in dda_create computes the maximum. -/
theorem total_steps_of_eq_max (xd yd zd ed : Nat) :
    total_steps_of xd yd zd ed = Nat.max (Nat.max (Nat.max xd yd) zd) ed := by
  simp only [total_steps_of, Nat.max_def]
  split_ifs <;> omega

/-- Every axis delta is at most `total_steps`. -/
theorem deltas_le_total (xd yd zd ed : Nat) :
    xd ≤ total_steps_of xd yd zd ed ∧ yd ≤ total_steps_of xd yd zd ed ∧
    zd ≤ total_steps_of xd yd zd ed ∧ ed ≤ total_steps_of xd yd zd ed := by
  simp only [total_steps_of]
  split_ifs <;> omega

/-- Some axis attains `total_steps`. -/
theorem total_steps_dominant (xd yd zd ed : Nat) :
    total_steps_of xd yd zd ed = xd ∨ total_steps_of xd yd zd ed = yd ∨
    total_steps_of xd yd zd ed = zd ∨ total_steps_of xd yd zd ed = ed := by
  simp only [total_steps_of]
  split_ifs <;> omega

/-! Single-axis Bresenham lemmas. -/

/-- An exhausted axis is left untouched. -/
theorem axis_step_zero (delta total : Nat) (c : Int) :
    axis_step delta total 0 c = ⟨0, c, false⟩ := by
  simp [axis_step]

/-- An active axis whose accumulator underflows emits a pulse. -/
theorem axis_step_pulse (delta total s : Nat) (c : Int) (hs : s ≠ 0)
    (hc : c - (delta : Int) < 0) :
    axis_step delta total s c = ⟨s - 1, c - (delta : Int) + (total : Int), true⟩ := by
  simp [axis_step, hs, hc]

/-- An active axis whose accumulator stays nonnegative holds. -/
theorem axis_step_hold (delta total s : Nat) (c : Int) (hs : s ≠ 0)
    (hc : ¬c - (delta : Int) < 0) :
    axis_step delta total s c = ⟨s, c - (delta : Int), false⟩ := by
  simp [axis_step, hs, hc]

/-- Unfolding one tick of the single-axis iteration. -/
theorem axisN_succ (delta total k : Nat) :
    axisN delta total (k + 1) =
      ((axis_step delta total (axisN delta total k).1 (axisN delta total k).2).steps,
       (axis_step delta total (axisN delta total k).1 (axisN delta total k).2).counter) :=
  rfl

/-- The remaining steps together with the pulse bit account for one tick. -/
theorem axis_step_count (delta total s : Nat) (c : Int) :
    (axis_step delta total s c).steps +
      (if (axis_step delta total s c).pulse then 1 else 0) = s := by
  by_cases hs : s = 0
  · subst hs
    rw [axis_step_zero]
    simp
  · by_cases hc : c - (delta : Int) < 0
    · rw [axis_step_pulse _ _ _ _ hs hc]
      dsimp only
      simp only [if_true]
      omega
    · rw [axis_step_hold _ _ _ _ hs hc]
      dsimp only
      simp

/-- The Bresenham invariant for one axis: the remaining steps never exceed the
delta, the accumulator never drops below its start value, and while the axis
is active the accumulator is an exact linear function of the tick count and
the pulses emitted so far. -/
theorem axisN_inv (d T : Nat) (hd : d ≤ T) (k : Nat) :
    (axisN d T k).1 ≤ d ∧ c0init T ≤ (axisN d T k).2 ∧
    ((axisN d T k).1 ≠ 0 →
      (axisN d T k).2 =
        c0init T - (k : Int) * d + ((d : Int) - (axisN d T k).1) * T) := by
  induction k with
  | zero =>
    refine ⟨le_refl d, le_refl _, fun _ => ?_⟩
    simp [axisN]
  | succ k ih =>
    obtain ⟨h1, h2, h3⟩ := ih
    have hc0 : c0init T ≤ 0 := by
      simp only [c0init]
      omega
    by_cases hz : (axisN d T k).1 = 0
    · rw [axisN_succ, hz, axis_step_zero]
      refine ⟨by dsimp only; omega, by dsimp only; exact h2, fun h => ?_⟩
      dsimp only at h
      exact absurd rfl h
    · have hf := h3 hz
      have hs1 : 1 ≤ (axisN d T k).1 := Nat.one_le_iff_ne_zero.mpr hz
      by_cases hp : (axisN d T k).2 - (d : Int) < 0
      · rw [axisN_succ, axis_step_pulse _ _ _ _ hz hp]
        dsimp only
        refine ⟨by omega, ?_, fun _ => ?_⟩
        · have hdT : (d : Int) ≤ (T : Int) := by exact_mod_cast hd
          omega
        · have hcast : (((axisN d T k).1 - 1 : Nat) : Int) =
            ((axisN d T k).1 : Int) - 1 := by omega
          rw [hcast]
          push_cast
          linear_combination hf
      · rw [axisN_succ, axis_step_hold _ _ _ _ hz hp]
        dsimp only
        refine ⟨h1, by omega, fun _ => ?_⟩
        push_cast
        linear_combination hf

/-- After `total_steps` ticks an axis with `delta ≤ total_steps` has no
remaining steps: it has emitted exactly `delta` pulses. -/
theorem axisN_done (d T : Nat) (hd : d ≤ T) (hT : T ≠ 0) :
    (axisN d T T).1 = 0 := by
  by_contra h
  obtain ⟨h1, h2, h3⟩ := axisN_inv d T hd T
  have hf := h3 h
  rw [hf] at h2
  have hs1 : 1 ≤ (axisN d T T).1 := Nat.one_le_iff_ne_zero.mpr h
  have hspos : (0 : Int) < ((axisN d T T).1 : Int) := by exact_mod_cast hs1
  have hTpos : (0 : Int) < (T : Int) := by
    exact_mod_cast Nat.pos_of_ne_zero hT
  nlinarith [mul_pos hspos hTpos]

/-- The dominant axis (`delta = total_steps`) pulses on every tick: after `k`
ticks its remaining count is `total - k` and its accumulator is unchanged. -/
theorem axisN_dom (T k : Nat) (hk : k ≤ T) :
    axisN T T k = (T - k, c0init T) := by
  induction k with
  | zero => simp [axisN]
  | succ k ih =>
    have ihk := ih (by omega)
    rw [axisN_succ, ihk]
    have h1 : T - k ≠ 0 := by omega
    have h2 : c0init T - (T : Int) < 0 := by
      simp only [c0init]
      omega
    rw [axis_step_pulse _ _ _ _ h1 h2]
    have h3 : T - k - 1 = T - (k + 1) := by omega
    simp [h3]

/-! Projection lemmas for one interrupt. -/

/-- The record after a tick: cleared only on completion. -/
theorem dda_step_dda (s : Sys) :
    (dda_step s).dda =
      if finished_of s then { s.dda with live := false } else s.dda := rfl

/-- The position after a tick: E and F finalised only on completion. -/
theorem dda_step_pos (s : Sys) :
    (dda_step s).pos =
      if finished_of s then { s.pos with E := 0, F := s.dda.endpoint.F }
      else s.pos := rfl

/-- Remaining X steps after a tick. -/
theorem dda_step_x_steps (s : Sys) :
    (dda_step s).ms.x_steps = (axis_x s).steps := rfl

/-- X accumulator after a tick. -/
theorem dda_step_x_counter (s : Sys) :
    (dda_step s).ms.x_counter = (axis_x s).counter := rfl

/-- Remaining Y steps after a tick. -/
theorem dda_step_y_steps (s : Sys) :
    (dda_step s).ms.y_steps = (axis_y s).steps := rfl

/-- Y accumulator after a tick. -/
theorem dda_step_y_counter (s : Sys) :
    (dda_step s).ms.y_counter = (axis_y s).counter := rfl

/-- Remaining Z steps after a tick. -/
theorem dda_step_z_steps (s : Sys) :
    (dda_step s).ms.z_steps = (axis_z s).steps := rfl

/-- Z accumulator after a tick. -/
theorem dda_step_z_counter (s : Sys) :
    (dda_step s).ms.z_counter = (axis_z s).counter := rfl

/-- Remaining E steps after a tick. -/
theorem dda_step_e_steps (s : Sys) :
    (dda_step s).ms.e_steps = (axis_e s).steps := rfl

/-- E accumulator after a tick. -/
theorem dda_step_e_counter (s : Sys) :
    (dda_step s).ms.e_counter = (axis_e s).counter := rfl

/-- The step counter advances on every invocation. -/
theorem dda_step_step_no (s : Sys) :
    (dda_step s).ms.step_no = s.ms.step_no + 1 := rfl

/-- The slope counter after a tick. -/
theorem dda_step_n (s : Sys) : (dda_step s).ms.n = (ramp_of s).1 := rfl

/-- The step period after a tick. -/
theorem dda_step_c (s : Sys) : (dda_step s).ms.c = (ramp_of s).2 := rfl

/-- The timer programming of a tick. -/
theorem dda_step_timer (s : Sys) :
    (dda_step s).timer =
      (if s.dda.c_min > (ramp_of s).2 then s.dda.c_min else (ramp_of s).2)
        / 256 := rfl

/-- Ghost X pulse counter after a tick. -/
theorem dda_step_xPulses (s : Sys) :
    (dda_step s).xPulses =
      s.xPulses + (if (axis_x s).pulse then 1 else 0) := rfl

/-- Ghost Y pulse counter after a tick. -/
theorem dda_step_yPulses (s : Sys) :
    (dda_step s).yPulses =
      s.yPulses + (if (axis_y s).pulse then 1 else 0) := rfl

/-- Ghost Z pulse counter after a tick. -/
theorem dda_step_zPulses (s : Sys) :
    (dda_step s).zPulses =
      s.zPulses + (if (axis_z s).pulse then 1 else 0) := rfl

/-- Ghost E pulse counter after a tick. -/
theorem dda_step_ePulses (s : Sys) :
    (dda_step s).ePulses =
      s.ePulses + (if (axis_e s).pulse then 1 else 0) := rfl

/-- Main run invariant: as long as the tick count has not exceeded
`total_steps`, the record and position are untouched, each axis's Bresenham
state agrees with its isolated single-axis run, and the ghost pulse counters
complement the remaining steps. -/
theorem run_inv (d : DDA) (pos : TARGET) (n0 : Int) (cc t0 : Nat)
    (hx : d.x_delta ≤ d.total_steps) (hy : d.y_delta ≤ d.total_steps)
    (hz : d.z_delta ≤ d.total_steps) (he : d.e_delta ≤ d.total_steps)
    (hdom : d.x_delta = d.total_steps ∨ d.y_delta = d.total_steps ∨
      d.z_delta = d.total_steps ∨ d.e_delta = d.total_steps) :
    ∀ k, k ≤ d.total_steps →
      (stepN k (runSys d pos n0 cc t0)).dda = d ∧
      (stepN k (runSys d pos n0 cc t0)).pos = pos ∧
      (stepN k (runSys d pos n0 cc t0)).ms.x_steps =
        (axisN d.x_delta d.total_steps k).1 ∧
      (stepN k (runSys d pos n0 cc t0)).ms.x_counter =
        (axisN d.x_delta d.total_steps k).2 ∧
      (stepN k (runSys d pos n0 cc t0)).ms.y_steps =
        (axisN d.y_delta d.total_steps k).1 ∧
      (stepN k (runSys d pos n0 cc t0)).ms.y_counter =
        (axisN d.y_delta d.total_steps k).2 ∧
      (stepN k (runSys d pos n0 cc t0)).ms.z_steps =
        (axisN d.z_delta d.total_steps k).1 ∧
      (stepN k (runSys d pos n0 cc t0)).ms.z_counter =
        (axisN d.z_delta d.total_steps k).2 ∧
      (stepN k (runSys d pos n0 cc t0)).ms.e_steps =
        (axisN d.e_delta d.total_steps k).1 ∧
      (stepN k (runSys d pos n0 cc t0)).ms.e_counter =
        (axisN d.e_delta d.total_steps k).2 ∧
      (stepN k (runSys d pos n0 cc t0)).xPulses +
        (axisN d.x_delta d.total_steps k).1 = d.x_delta ∧
      (stepN k (runSys d pos n0 cc t0)).yPulses +
        (axisN d.y_delta d.total_steps k).1 = d.y_delta ∧
      (stepN k (runSys d pos n0 cc t0)).zPulses +
        (axisN d.z_delta d.total_steps k).1 = d.z_delta ∧
      (stepN k (runSys d pos n0 cc t0)).ePulses +
        (axisN d.e_delta d.total_steps k).1 = d.e_delta := by
  intro k
  induction k with
  | zero =>
    intro _
    refine ⟨rfl, rfl, rfl, rfl, rfl, rfl, rfl, rfl, rfl, rfl, ?_, ?_, ?_, ?_⟩
      <;> simp [stepN, runSys, axisN]
  | succ k ih =>
    intro hk1
    obtain ⟨hdda, hpos, hxs, hxc, hys, hyc, hzs, hzc, hes, hec, hpx, hpy,
      hpz, hpe⟩ := ih (by omega)
    set s := stepN k (runSys d pos n0 cc t0) with hsdef
    have hstep : stepN (k + 1) (runSys d pos n0 cc t0) = dda_step s := rfl
    have hdid : did_step_of s = true := by
      unfold did_step_of
      rcases hdom with h | h | h | h
      · have hax : axis_x s = axis_step d.x_delta d.total_steps
            (d.total_steps - k) (c0init d.total_steps) := by
          unfold axis_x
          rw [hdda, hxs, hxc, h, axisN_dom _ _ (by omega)]
        rw [hax, axis_step_pulse _ _ _ _ (by omega)
          (by simp only [c0init]; omega)]
        simp
      · have hax : axis_y s = axis_step d.y_delta d.total_steps
            (d.total_steps - k) (c0init d.total_steps) := by
          unfold axis_y
          rw [hdda, hys, hyc, h, axisN_dom _ _ (by omega)]
        rw [hax, axis_step_pulse _ _ _ _ (by omega)
          (by simp only [c0init]; omega)]
        simp
      · have hax : axis_z s = axis_step d.z_delta d.total_steps
            (d.total_steps - k) (c0init d.total_steps) := by
          unfold axis_z
          rw [hdda, hzs, hzc, h, axisN_dom _ _ (by omega)]
        rw [hax, axis_step_pulse _ _ _ _ (by omega)
          (by simp only [c0init]; omega)]
        simp
      · have hax : axis_e s = axis_step d.e_delta d.total_steps
            (d.total_steps - k) (c0init d.total_steps) := by
          unfold axis_e
          rw [hdda, hes, hec, h, axisN_dom _ _ (by omega)]
        rw [hax, axis_step_pulse _ _ _ _ (by omega)
          (by simp only [c0init]; omega)]
        simp
    have hfin : finished_of s = false := by
      unfold finished_of
      rw [hdid]
      rfl
    have haxx : axis_x s = axis_step d.x_delta d.total_steps
        (axisN d.x_delta d.total_steps k).1 (axisN d.x_delta d.total_steps k).2 := by
      unfold axis_x
      rw [hdda, hxs, hxc]
    have haxy : axis_y s = axis_step d.y_delta d.total_steps
        (axisN d.y_delta d.total_steps k).1 (axisN d.y_delta d.total_steps k).2 := by
      unfold axis_y
      rw [hdda, hys, hyc]
    have haxz : axis_z s = axis_step d.z_delta d.total_steps
        (axisN d.z_delta d.total_steps k).1 (axisN d.z_delta d.total_steps k).2 := by
      unfold axis_z
      rw [hdda, hzs, hzc]
    have haxe : axis_e s = axis_step d.e_delta d.total_steps
        (axisN d.e_delta d.total_steps k).1 (axisN d.e_delta d.total_steps k).2 := by
      unfold axis_e
      rw [hdda, hes, hec]
    refine ⟨?_, ?_, ?_, ?_, ?_, ?_, ?_, ?_, ?_, ?_, ?_, ?_, ?_, ?_⟩
    · rw [hstep, dda_step_dda, hfin, if_neg (by simp), hdda]
    · rw [hstep, dda_step_pos, hfin, if_neg (by simp), hpos]
    · rw [hstep, dda_step_x_steps, haxx, axisN_succ]
    · rw [hstep, dda_step_x_counter, haxx, axisN_succ]
    · rw [hstep, dda_step_y_steps, haxy, axisN_succ]
    · rw [hstep, dda_step_y_counter, haxy, axisN_succ]
    · rw [hstep, dda_step_z_steps, haxz, axisN_succ]
    · rw [hstep, dda_step_z_counter, haxz, axisN_succ]
    · rw [hstep, dda_step_e_steps, haxe, axisN_succ]
    · rw [hstep, dda_step_e_counter, haxe, axisN_succ]
    · rw [hstep, dda_step_xPulses, haxx, axisN_succ]
      have hcount := axis_step_count d.x_delta d.total_steps
        (axisN d.x_delta d.total_steps k).1 (axisN d.x_delta d.total_steps k).2
      dsimp only
      omega
    · rw [hstep, dda_step_yPulses, haxy, axisN_succ]
      have hcount := axis_step_count d.y_delta d.total_steps
        (axisN d.y_delta d.total_steps k).1 (axisN d.y_delta d.total_steps k).2
      dsimp only
      omega
    · rw [hstep, dda_step_zPulses, haxz, axisN_succ]
      have hcount := axis_step_count d.z_delta d.total_steps
        (axisN d.z_delta d.total_steps k).1 (axisN d.z_delta d.total_steps k).2
      dsimp only
      omega
    · rw [hstep, dda_step_ePulses, haxe, axisN_succ]
      have hcount := axis_step_count d.e_delta d.total_steps
        (axisN d.e_delta d.total_steps k).1 (axisN d.e_delta d.total_steps k).2
      dsimp only
      omega

/-! Branch lemmas for the planner and the activator. -/

/-- The `total_steps` field always holds the computed maximum. -/
theorem dda_create_total (cfg : Config) (prev : DDA) (sp t : TARGET) :
    (dda_create cfg prev sp t).dda.total_steps =
      total_steps_of (t.X - sp.X).natAbs (t.Y - sp.Y).natAbs
        (t.Z - sp.Z).natAbs (t.E - sp.E).natAbs := by
  simp only [dda_create]
  split <;> rfl

/-- The planner's output in the non-null branch. -/
theorem dda_create_eq (cfg : Config) (prev : DDA) (sp t : TARGET)
    (h : total_steps_of (t.X - sp.X).natAbs (t.Y - sp.Y).natAbs
      (t.Z - sp.Z).natAbs (t.E - sp.E).natAbs ≠ 0) :
    dda_create cfg prev sp t =
      { dda := { endpoint := t
                 x_delta := (t.X - sp.X).natAbs
                 y_delta := (t.Y - sp.Y).natAbs
                 z_delta := (t.Z - sp.Z).natAbs
                 e_delta := (t.E - sp.E).natAbs
                 x_direction := decide (sp.X ≤ t.X)
                 y_direction := decide (sp.Y ≤ t.Y)
                 z_direction := decide (sp.Z ≤ t.Z)
                 e_direction := decide (sp.E ≤ t.E)
                 total_steps := total_steps_of (t.X - sp.X).natAbs
                   (t.Y - sp.Y).natAbs (t.Z - sp.Z).natAbs (t.E - sp.E).natAbs
                 nullmove := false
                 live := false
                 c0 := c0_of cfg (t.X - sp.X).natAbs (t.Y - sp.Y).natAbs
                   (t.Z - sp.Z).natAbs (t.E - sp.E).natAbs
                 c_min := c_min_of cfg (t.X - sp.X).natAbs (t.Y - sp.Y).natAbs
                   (t.Z - sp.Z).natAbs (t.E - sp.E).natAbs t.F
                 rampup_steps := rampup_of cfg (t.X - sp.X).natAbs
                   (t.Y - sp.Y).natAbs (t.Z - sp.Z).natAbs (t.E - sp.E).natAbs
                   t.F
                 rampdown_steps := rampdown_of cfg (t.X - sp.X).natAbs
                   (t.Y - sp.Y).natAbs (t.Z - sp.Z).natAbs (t.E - sp.E).natAbs
                   t.F }
        startpoint := { X := t.X, Y := t.Y, Z := t.Z, E := 0, F := t.F }
        steppers_on := true } := by
  simp only [dda_create]
  rw [if_neg h]

/-- The planner's output in the null branch. -/
theorem dda_create_eq_null (cfg : Config) (prev : DDA) (sp t : TARGET)
    (h : total_steps_of (t.X - sp.X).natAbs (t.Y - sp.Y).natAbs
      (t.Z - sp.Z).natAbs (t.E - sp.E).natAbs = 0) :
    dda_create cfg prev sp t =
      { dda := { endpoint := t
                 x_delta := (t.X - sp.X).natAbs
                 y_delta := (t.Y - sp.Y).natAbs
                 z_delta := (t.Z - sp.Z).natAbs
                 e_delta := (t.E - sp.E).natAbs
                 x_direction := decide (sp.X ≤ t.X)
                 y_direction := decide (sp.Y ≤ t.Y)
                 z_direction := decide (sp.Z ≤ t.Z)
                 e_direction := decide (sp.E ≤ t.E)
                 total_steps := total_steps_of (t.X - sp.X).natAbs
                   (t.Y - sp.Y).natAbs (t.Z - sp.Z).natAbs (t.E - sp.E).natAbs
                 nullmove := true
                 live := false
                 c0 := prev.c0
                 c_min := prev.c_min
                 rampup_steps := prev.rampup_steps
                 rampdown_steps := prev.rampdown_steps }
        startpoint := { X := t.X, Y := t.Y, Z := t.Z, E := 0, F := t.F }
        steppers_on := false } := by
  simp only [dda_create]
  rw [if_pos h]

/-- Activation of a non-null record, expressed through `runSys`. -/
theorem mkSys_start (d : DDA) (ms : MOVE_STATE) (pos : TARGET)
    (h : d.nullmove = false) :
    mkSys (dda_start d ms pos) =
      runSys { d with live := true } pos ms.n d.c0
        ((if d.c_min > d.c0 then d.c_min else d.c0) / 256) := by
  simp only [dda_start, mkSys, runSys, h, Bool.false_eq_true, if_false]
  rfl

/-- Execution of a started non-null well-formed record: after `total_steps`
interrupts every axis has exhausted its delta and emitted exactly that many
pulses, the record and the position are untouched (still live); before that
some axis still has remaining steps; on the next interrupt the move is
detected as finished. -/
theorem run_master (d : DDA) (ms : MOVE_STATE) (pos : TARGET)
    (hnull : d.nullmove = false)
    (hx : d.x_delta ≤ d.total_steps) (hy : d.y_delta ≤ d.total_steps)
    (hz : d.z_delta ≤ d.total_steps) (he : d.e_delta ≤ d.total_steps)
    (hdom : d.x_delta = d.total_steps ∨ d.y_delta = d.total_steps ∨
      d.z_delta = d.total_steps ∨ d.e_delta = d.total_steps)
    (hT : d.total_steps ≠ 0) :
    (stepN d.total_steps (mkSys (dda_start d ms pos))).dda =
      { d with live := true } ∧
    (stepN d.total_steps (mkSys (dda_start d ms pos))).pos = pos ∧
    (stepN d.total_steps (mkSys (dda_start d ms pos))).ms.x_steps = 0 ∧
    (stepN d.total_steps (mkSys (dda_start d ms pos))).ms.y_steps = 0 ∧
    (stepN d.total_steps (mkSys (dda_start d ms pos))).ms.z_steps = 0 ∧
    (stepN d.total_steps (mkSys (dda_start d ms pos))).ms.e_steps = 0 ∧
    (stepN d.total_steps (mkSys (dda_start d ms pos))).xPulses = d.x_delta ∧
    (stepN d.total_steps (mkSys (dda_start d ms pos))).yPulses = d.y_delta ∧
    (stepN d.total_steps (mkSys (dda_start d ms pos))).zPulses = d.z_delta ∧
    (stepN d.total_steps (mkSys (dda_start d ms pos))).ePulses = d.e_delta ∧
    (∀ k, k < d.total_steps →
      ¬((stepN k (mkSys (dda_start d ms pos))).ms.x_steps = 0 ∧
        (stepN k (mkSys (dda_start d ms pos))).ms.y_steps = 0 ∧
        (stepN k (mkSys (dda_start d ms pos))).ms.z_steps = 0 ∧
        (stepN k (mkSys (dda_start d ms pos))).ms.e_steps = 0)) ∧
    finished_of (stepN d.total_steps (mkSys (dda_start d ms pos))) = true ∧
    (dda_step (stepN d.total_steps (mkSys (dda_start d ms pos)))).dda =
      { d with live := false } ∧
    (dda_step (stepN d.total_steps (mkSys (dda_start d ms pos)))).pos =
      { pos with E := 0, F := d.endpoint.F } := by
  rw [mkSys_start d ms pos hnull]
  have hdone :=
    run_inv { d with live := true } pos ms.n d.c0
      ((if d.c_min > d.c0 then d.c_min else d.c0) / 256) hx hy hz he hdom
      d.total_steps (le_refl _)
  obtain ⟨hdda, hpos, hxs, hxc, hys, hyc, hzs, hzc, hes, hec, hpx, hpy,
    hpz, hpe⟩ := hdone
  dsimp only at hxs hxc hys hyc hzs hzc hes hec hpx hpy hpz hpe
  have hxz := axisN_done d.x_delta d.total_steps hx hT
  have hyz := axisN_done d.y_delta d.total_steps hy hT
  have hzz := axisN_done d.z_delta d.total_steps hz hT
  have hez := axisN_done d.e_delta d.total_steps he hT
  set sT := stepN d.total_steps
    (runSys { d with live := true } pos ms.n d.c0
      ((if d.c_min > d.c0 then d.c_min else d.c0) / 256)) with hsT
  have hxs0 : sT.ms.x_steps = 0 := by rw [hxs, hxz]
  have hys0 : sT.ms.y_steps = 0 := by rw [hys, hyz]
  have hzs0 : sT.ms.z_steps = 0 := by rw [hzs, hzz]
  have hes0 : sT.ms.e_steps = 0 := by rw [hes, hez]
  have hfin : finished_of sT = true := by
    unfold finished_of did_step_of axis_x axis_y axis_z axis_e
    rw [hxs0, hys0, hzs0, hes0, axis_step_zero, axis_step_zero,
      axis_step_zero, axis_step_zero]
    rfl
  refine ⟨hdda, hpos, hxs0, hys0, hzs0, hes0, by omega, by omega, by omega,
    by omega, ?_, hfin, ?_, ?_⟩
  · intro k hk hall
    obtain ⟨ha, hb, hc, hd2⟩ := hall
    have hinv := run_inv { d with live := true } pos ms.n d.c0
      ((if d.c_min > d.c0 then d.c_min else d.c0) / 256) hx hy hz he hdom
      k (Nat.le_of_lt hk)
    have hdomv := axisN_dom d.total_steps k (by omega)
    rcases hdom with hc1 | hc1 | hc1 | hc1
    · have hthis := hinv.2.2.1
      dsimp only at hthis
      rw [ha, hc1, hdomv] at hthis
      dsimp only at hthis
      omega
    · have hthis := hinv.2.2.2.2.1
      dsimp only at hthis
      rw [hb, hc1, hdomv] at hthis
      dsimp only at hthis
      omega
    · have hthis := hinv.2.2.2.2.2.2.1
      dsimp only at hthis
      rw [hc, hc1, hdomv] at hthis
      dsimp only at hthis
      omega
    · have hthis := hinv.2.2.2.2.2.2.2.2.1
      dsimp only at hthis
      rw [hd2, hc1, hdomv] at hthis
      dsimp only at hthis
      omega
  · rw [dda_step_dda, hfin, if_pos rfl, hdda]
  · rw [dda_step_pos, hfin, if_pos rfl, hpos, hdda]

/-- Field values of a non-null planned record. -/
theorem dda_create_fields (cfg : Config) (prev : DDA) (sp t : TARGET)
    (h : total_steps_of (t.X - sp.X).natAbs (t.Y - sp.Y).natAbs
      (t.Z - sp.Z).natAbs (t.E - sp.E).natAbs ≠ 0) :
    (dda_create cfg prev sp t).dda.nullmove = false ∧
    (dda_create cfg prev sp t).dda.endpoint = t ∧
    (dda_create cfg prev sp t).dda.x_delta = (t.X - sp.X).natAbs ∧
    (dda_create cfg prev sp t).dda.y_delta = (t.Y - sp.Y).natAbs ∧
    (dda_create cfg prev sp t).dda.z_delta = (t.Z - sp.Z).natAbs ∧
    (dda_create cfg prev sp t).dda.e_delta = (t.E - sp.E).natAbs := by
  rw [dda_create_eq cfg prev sp t h]
  exact ⟨rfl, rfl, rfl, rfl, rfl, rfl⟩

/-- C1: for every completed non-null move, each axis emits exactly its
planned step delta many pulses over the course of the move, and after
completion the current position equals the move's endpoint on every axis,
except the extruder axis which (relative-E build) is reset to zero. -/
theorem C1_completed_move_exact (cfg : Config) (prev : DDA) (sp t : TARGET)
    (ms : MOVE_STATE) (pos : TARGET)
    (h : (dda_create cfg prev sp t).dda.total_steps ≠ 0) :
    C1_concl cfg prev sp t ms pos := by
  have h' := h
  rw [dda_create_total] at h'
  obtain ⟨hnull, hend, hxd, hyd, hzd, hed⟩ := dda_create_fields cfg prev sp t h'
  have htot := dda_create_total cfg prev sp t
  simp only [C1_concl]
  have hles := deltas_le_total (t.X - sp.X).natAbs (t.Y - sp.Y).natAbs
    (t.Z - sp.Z).natAbs (t.E - sp.E).natAbs
  have hx : (dda_create cfg prev sp t).dda.x_delta ≤
      (dda_create cfg prev sp t).dda.total_steps := by
    rw [hxd, htot]; exact hles.1
  have hy : (dda_create cfg prev sp t).dda.y_delta ≤
      (dda_create cfg prev sp t).dda.total_steps := by
    rw [hyd, htot]; exact hles.2.1
  have hz : (dda_create cfg prev sp t).dda.z_delta ≤
      (dda_create cfg prev sp t).dda.total_steps := by
    rw [hzd, htot]; exact hles.2.2.1
  have he : (dda_create cfg prev sp t).dda.e_delta ≤
      (dda_create cfg prev sp t).dda.total_steps := by
    rw [hed, htot]; exact hles.2.2.2
  have hdom : (dda_create cfg prev sp t).dda.x_delta =
        (dda_create cfg prev sp t).dda.total_steps ∨
      (dda_create cfg prev sp t).dda.y_delta =
        (dda_create cfg prev sp t).dda.total_steps ∨
      (dda_create cfg prev sp t).dda.z_delta =
        (dda_create cfg prev sp t).dda.total_steps ∨
      (dda_create cfg prev sp t).dda.e_delta =
        (dda_create cfg prev sp t).dda.total_steps := by
    rw [hxd, hyd, hzd, hed, htot]
    rcases total_steps_dominant (t.X - sp.X).natAbs (t.Y - sp.Y).natAbs
      (t.Z - sp.Z).natAbs (t.E - sp.E).natAbs with hh | hh | hh | hh
    · exact Or.inl hh.symm
    · exact Or.inr (Or.inl hh.symm)
    · exact Or.inr (Or.inr (Or.inl hh.symm))
    · exact Or.inr (Or.inr (Or.inr hh.symm))
  obtain ⟨mdda, mpos, mxs, mys, mzs, mes, mpx, mpy, mpz, mpe, mrun, mfin,
    mlast, mlpos⟩ := run_master (dda_create cfg prev sp t).dda ms pos hnull
      hx hy hz he hdom h
  refine ⟨mpx, mpy, mpz, mpe, ?_, ?_, ?_, ?_, ?_, ?_, ?_⟩
  · unfold update_position
    rw [mdda, mxs]
    simp
  · unfold update_position
    rw [mdda, mys]
    simp
  · unfold update_position
    rw [mdda, mzs]
    simp
  · unfold update_position
    rw [mdda, mes]
    simp
  · rw [mlast]
  · rw [mlpos]
  · rw [mlpos]

/-- Witness for C1 at a concrete move: origin to (2, 1, 0, 1) at F = 60. -/
theorem C1_witness :
    (dda_create (⟨1, 1, 1, 1, 1, 1, 1, 1⟩ : Config)
        (⟨⟨9, 9, 9, 9, 120⟩, 9, 9, 9, 9, true, true, true, true, 9, false, false, 7777, 8888, 50, 60⟩ : DDA)
        (⟨0, 0, 0, 0, 60⟩ : TARGET)
        (⟨2, 1, 0, 1, 60⟩ : TARGET)).dda.total_steps ≠ 0 ∧
    C1_concl ⟨1, 1, 1, 1, 1, 1, 1, 1⟩
      ⟨⟨9, 9, 9, 9, 120⟩, 9, 9, 9, 9, true, true, true, true, 9, false, false, 7777, 8888, 50, 60⟩
      ⟨0, 0, 0, 0, 60⟩ ⟨2, 1, 0, 1, 60⟩
      ⟨0, 0, 0, 0, 0, 0, 0, 0, 0, 1, 2500⟩ ⟨0, 0, 0, 0, 60⟩ :=
  ⟨by decide, C1_completed_move_exact _ _ _ _ _ _ (by decide)⟩

/-- C2: for every move created by the planner, `total_steps` equals the
maximum of the four per-axis absolute step deltas, and the move's stepping
occupies exactly `total_steps` timer interrupts (the record is retired on
the interrupt after the last step). -/
theorem C2_total_steps_is_max_and_tick_count (cfg : Config) (prev : DDA)
    (sp t : TARGET)
    (ms : MOVE_STATE) (pos : TARGET)
    (h : (dda_create cfg prev sp t).dda.total_steps ≠ 0) :
    C2_concl cfg prev sp t ms pos := by
  have h' := h
  rw [dda_create_total] at h'
  obtain ⟨hnull, hend, hxd, hyd, hzd, hed⟩ := dda_create_fields cfg prev sp t h'
  have htot := dda_create_total cfg prev sp t
  simp only [C2_concl]
  have hles := deltas_le_total (t.X - sp.X).natAbs (t.Y - sp.Y).natAbs
    (t.Z - sp.Z).natAbs (t.E - sp.E).natAbs
  have hx : (dda_create cfg prev sp t).dda.x_delta ≤
      (dda_create cfg prev sp t).dda.total_steps := by
    rw [hxd, htot]; exact hles.1
  have hy : (dda_create cfg prev sp t).dda.y_delta ≤
      (dda_create cfg prev sp t).dda.total_steps := by
    rw [hyd, htot]; exact hles.2.1
  have hz : (dda_create cfg prev sp t).dda.z_delta ≤
      (dda_create cfg prev sp t).dda.total_steps := by
    rw [hzd, htot]; exact hles.2.2.1
  have he : (dda_create cfg prev sp t).dda.e_delta ≤
      (dda_create cfg prev sp t).dda.total_steps := by
    rw [hed, htot]; exact hles.2.2.2
  have hdom : (dda_create cfg prev sp t).dda.x_delta =
        (dda_create cfg prev sp t).dda.total_steps ∨
      (dda_create cfg prev sp t).dda.y_delta =
        (dda_create cfg prev sp t).dda.total_steps ∨
      (dda_create cfg prev sp t).dda.z_delta =
        (dda_create cfg prev sp t).dda.total_steps ∨
      (dda_create cfg prev sp t).dda.e_delta =
        (dda_create cfg prev sp t).dda.total_steps := by
    rw [hxd, hyd, hzd, hed, htot]
    rcases total_steps_dominant (t.X - sp.X).natAbs (t.Y - sp.Y).natAbs
      (t.Z - sp.Z).natAbs (t.E - sp.E).natAbs with hh | hh | hh | hh
    · exact Or.inl hh.symm
    · exact Or.inr (Or.inl hh.symm)
    · exact Or.inr (Or.inr (Or.inl hh.symm))
    · exact Or.inr (Or.inr (Or.inr hh.symm))
  obtain ⟨mdda, mpos, mxs, mys, mzs, mes, mpx, mpy, mpz, mpe, mrun, mfin,
    mlast, mlpos⟩ := run_master (dda_create cfg prev sp t).dda ms pos hnull
      hx hy hz he hdom h
  refine ⟨?_, hxd, hyd, hzd, hed, mrun, mxs, mys, mzs, mes, ?_, ?_⟩
  · rw [htot, hxd, hyd, hzd, hed]
    exact total_steps_of_eq_max (t.X - sp.X).natAbs (t.Y - sp.Y).natAbs
      (t.Z - sp.Z).natAbs (t.E - sp.E).natAbs
  · rw [mdda]
  · rw [mlast]

/-- Witness for C2 at a concrete move: origin to (2, 1, 0, 1) at F = 60. -/
theorem C2_witness :
    (dda_create (⟨1, 1, 1, 1, 1, 1, 1, 1⟩ : Config)
        (⟨⟨9, 9, 9, 9, 120⟩, 9, 9, 9, 9, true, true, true, true, 9, false, false, 7777, 8888, 50, 60⟩ : DDA)
        (⟨0, 0, 0, 0, 60⟩ : TARGET)
        (⟨2, 1, 0, 1, 60⟩ : TARGET)).dda.total_steps ≠ 0 ∧
    C2_concl ⟨1, 1, 1, 1, 1, 1, 1, 1⟩
      ⟨⟨9, 9, 9, 9, 120⟩, 9, 9, 9, 9, true, true, true, true, 9, false, false, 7777, 8888, 50, 60⟩
      ⟨0, 0, 0, 0, 60⟩ ⟨2, 1, 0, 1, 60⟩
      ⟨0, 0, 0, 0, 0, 0, 0, 0, 0, 1, 2500⟩ ⟨0, 0, 0, 1, 60⟩ :=
  ⟨by decide, C2_total_steps_is_max_and_tick_count _ _ _ _ _ _ (by decide)⟩

/-- Casting a small stored period to `int32_t` is the identity. -/
theorem toInt32_small (c : Nat) (h : c < 2147483648) :
    toInt32 c = (c : Int) := by
  unfold toInt32
  rw [Nat.mod_eq_of_lt (by omega), if_pos (by omega)]

/-- C3: on every ramping step-generator invocation, `step_no` advances; below
`rampup_steps` the slope counter is sign-corrected (the value used in the
division ends up positive) and `c := c - (c*2)/n` with `n` bumped by 4;
above `rampdown_steps` the sign correction yields a negative slope (given the
invariant that `n` is odd) before the bump, with the same recurrence; in
between, cruise: both are held.  Stated for states whose period fits in 30
bits, so that the two `int32_t` casts are transparent. -/
theorem C3_ramp_branches (s : Sys) (hodd : s.ms.n % 2 = 1)
    (hc : s.ms.c < 1073741824) : C3_concl s := by
  have ht1 : toInt32 s.ms.c = (s.ms.c : Int) := toInt32_small _ (by omega)
  have ht2 : toInt32 (s.ms.c * 2) = ((s.ms.c : Int) * 2) := by
    rw [toInt32_small _ (by omega)]
    push_cast
    ring
  refine ⟨dda_step_step_no s, ?_, ?_, ?_⟩
  · intro h1
    have hru : ramp_of s =
        ((if s.ms.n < 0 then -2 - s.ms.n else s.ms.n) + 4,
         u32i (toInt32 s.ms.c - Int.tdiv (toInt32 (s.ms.c * 2))
           ((if s.ms.n < 0 then -2 - s.ms.n else s.ms.n) + 4))) := by
      unfold ramp_of ramp_update
      rw [if_pos h1]
    have hn : (dda_step s).ms.n =
        (if s.ms.n < 0 then -2 - s.ms.n else s.ms.n) + 4 := by
      rw [dda_step_n, hru]
    have hpos : 0 < (dda_step s).ms.n := by
      rw [hn]
      split <;> omega
    refine ⟨hn, hpos, ?_⟩
    have hcc : (dda_step s).ms.c =
        u32i ((s.ms.c : Int) - Int.tdiv ((s.ms.c : Int) * 2)
          ((dda_step s).ms.n)) := by
      rw [dda_step_c, hru]
      dsimp only
      rw [ht1, ht2, hn]
    set n2 := (dda_step s).ms.n
    have hn2 : (3 : Int) ≤ n2 := by
      rw [hn]
      split <;> omega
    have hmn : ((n2.toNat : Nat) : Int) = n2 := Int.toNat_of_nonneg (by omega)
    have hq : Int.tdiv ((s.ms.c : Int) * 2) n2 =
        ((s.ms.c * 2 / n2.toNat : Nat) : Int) := by
      rw [Int.ofNat_tdiv, ← hmn]
      norm_cast
    have hqle : s.ms.c * 2 / n2.toNat ≤ s.ms.c := by
      have h3 : 3 ≤ n2.toNat := by omega
      have := Nat.div_le_div_left h3 (by omega : 0 < 3)
        (a := s.ms.c * 2)
      omega
    have hval : (s.ms.c : Int) - Int.tdiv ((s.ms.c : Int) * 2) n2 =
        ((s.ms.c - s.ms.c * 2 / n2.toNat : Nat) : Int) := by
      rw [hq]
      omega
    rw [hcc]
    have hcomm : (2 : Int) * (s.ms.c : Int) = (s.ms.c : Int) * 2 :=
      mul_comm 2 _
    rw [hcomm, hval]
    unfold u32i
    have hub : s.ms.c - s.ms.c * 2 / n2.toNat < 4294967296 :=
      lt_of_le_of_lt (Nat.sub_le _ _) (lt_trans hc (by norm_num))
    rw [Int.emod_eq_of_lt (Int.ofNat_nonneg _) (by exact_mod_cast hub)]
    simp
  · intro h1 h2
    have hneg : (if 0 < s.ms.n then -2 - s.ms.n else s.ms.n) < 0 := by
      split <;> omega
    have hru : ramp_of s =
        ((if 0 < s.ms.n then -2 - s.ms.n else s.ms.n) + 4,
         u32i (toInt32 s.ms.c - Int.tdiv (toInt32 (s.ms.c * 2))
           ((if 0 < s.ms.n then -2 - s.ms.n else s.ms.n) + 4))) := by
      unfold ramp_of ramp_update
      rw [if_neg h1, if_pos h2]
    have hn : (dda_step s).ms.n =
        (if 0 < s.ms.n then -2 - s.ms.n else s.ms.n) + 4 := by
      rw [dda_step_n, hru]
    refine ⟨hneg, hn, ?_⟩
    rw [dda_step_c, hru]
    dsimp only
    rw [ht1, ht2, hn]
    have hcomm : (2 : Int) * (s.ms.c : Int) = (s.ms.c : Int) * 2 :=
      mul_comm 2 _
    rw [hcomm]
  · intro h1 h2
    have hru : ramp_of s = (s.ms.n, s.ms.c) := by
      unfold ramp_of ramp_update
      rw [if_neg h1, if_neg h2]
    constructor
    · rw [dda_step_n, hru]
    · rw [dda_step_c, hru]

/-- Witness for C3 at a concrete in-ramp state. -/
theorem C3_witness :
    (⟨⟨⟨0, 0, 0, 0, 60⟩, 2, 1, 0, 1, true, true, true, true, 2, false, true,
        6480896, 4096000, 1, 1⟩,
      ⟨-1, -1, -1, -1, 2, 1, 0, 1, 0, 1, 6480896⟩,
      ⟨0, 0, 0, 0, 60⟩, 25316, 0, 0, 0, 0⟩ : Sys).ms.n % 2 = 1 ∧
    (⟨⟨⟨0, 0, 0, 0, 60⟩, 2, 1, 0, 1, true, true, true, true, 2, false, true,
        6480896, 4096000, 1, 1⟩,
      ⟨-1, -1, -1, -1, 2, 1, 0, 1, 0, 1, 6480896⟩,
      ⟨0, 0, 0, 0, 60⟩, 25316, 0, 0, 0, 0⟩ : Sys).ms.c < 1073741824 ∧
    C3_concl
      ⟨⟨⟨0, 0, 0, 0, 60⟩, 2, 1, 0, 1, true, true, true, true, 2, false, true,
        6480896, 4096000, 1, 1⟩,
      ⟨-1, -1, -1, -1, 2, 1, 0, 1, 0, 1, 6480896⟩,
      ⟨0, 0, 0, 0, 60⟩, 25316, 0, 0, 0, 0⟩ :=
  ⟨by decide, by decide, C3_ramp_branches _ (by decide) (by decide)⟩

/-- The comparison-and-pick idiom used for the timer equals `Nat.max`. -/
theorem if_gt_eq_max (a b : Nat) : (if a > b then a else b) = Nat.max a b := by
  rw [show Nat.max a b = a ⊔ b from rfl, Nat.max_def]
  split_ifs <;> omega

/-- C4: in ramping mode, every value programmed into the hardware timer — at
move activation and at the end of every step-generator invocation — is
`max(c_min, c) >> 8`, so the timer is never programmed below the move's
`c_min` (same `>> 8` scaling). -/
theorem C4_timer_never_below_c_min (dda : DDA) (ms : MOVE_STATE)
    (pos : TARGET) (s : Sys) (h : dda.nullmove = false) :
    C4_concl dda ms pos s := by
  refine ⟨?_, ?_, ?_⟩
  · unfold dda_start
    simp only [h, Bool.false_eq_true, if_false]
    rw [if_gt_eq_max]
  · rw [dda_step_timer, dda_step_c, if_gt_eq_max]
  · rw [dda_step_timer, if_gt_eq_max]
    exact Nat.div_le_div_right (Nat.le_max_left _ _)

/-- Witness for C4 at a concrete record and interrupt state. -/
theorem C4_witness :
    (⟨⟨0, 0, 0, 0, 60⟩, 2, 1, 0, 1, true, true, true, true, 2, false, false,
        6480896, 4096000, 1, 1⟩ : DDA).nullmove = false ∧
    C4_concl
      ⟨⟨0, 0, 0, 0, 60⟩, 2, 1, 0, 1, true, true, true, true, 2, false, false,
        6480896, 4096000, 1, 1⟩
      ⟨0, 0, 0, 0, 0, 0, 0, 0, 0, 1, 2500⟩ ⟨0, 0, 0, 0, 60⟩
      ⟨⟨⟨0, 0, 0, 0, 60⟩, 2, 1, 0, 1, true, true, true, true, 2, false, true,
          6480896, 4096000, 1, 1⟩,
        ⟨-1, -1, -1, -1, 2, 1, 0, 1, 0, 1, 6480896⟩,
        ⟨0, 0, 0, 0, 60⟩, 25316, 0, 0, 0, 0⟩ :=
  ⟨by decide, C4_timer_never_below_c_min _ _ _ _ (by decide)⟩

/-- C5: for every ramping (non-null) move after planning,
`rampup_steps * 2 ≤ total_steps` (natural ramp length clipped to half the
move) and `rampdown_steps = total_steps - rampup_steps`.  A nullmove keeps
whatever stale timing fields its queue slot already held, so the claim is
about the non-null branch, the only one that computes them. -/
theorem C5_ramp_lengths (cfg : Config) (prev : DDA) (sp t : TARGET)
    (h : (dda_create cfg prev sp t).dda.total_steps ≠ 0) :
    (dda_create cfg prev sp t).dda.rampup_steps * 2 ≤
      (dda_create cfg prev sp t).dda.total_steps ∧
    (dda_create cfg prev sp t).dda.rampdown_steps =
      (dda_create cfg prev sp t).dda.total_steps -
        (dda_create cfg prev sp t).dda.rampup_steps := by
  rw [dda_create_total] at h
  rw [dda_create_eq cfg prev sp t h]
  dsimp only
  constructor
  · simp only [rampup_of]
    split_ifs <;> omega
  · rfl

/-- Witness for C5 at a concrete move, planned over a slot whose previous
occupant left stale ramp fields behind. -/
theorem C5_witness :
    (dda_create ⟨1, 1, 1, 1, 1, 1, 1, 1⟩
        ⟨⟨9, 9, 9, 9, 120⟩, 9, 9, 9, 9, true, true, true, true, 9, false, false, 7777, 8888, 50, 60⟩
        ⟨0, 0, 0, 0, 60⟩ ⟨2, 1, 0, 1, 60⟩).dda.total_steps ≠ 0 ∧
    ((dda_create ⟨1, 1, 1, 1, 1, 1, 1, 1⟩
        ⟨⟨9, 9, 9, 9, 120⟩, 9, 9, 9, 9, true, true, true, true, 9, false, false, 7777, 8888, 50, 60⟩
        ⟨0, 0, 0, 0, 60⟩ ⟨2, 1, 0, 1, 60⟩).dda.rampup_steps * 2 ≤
      (dda_create ⟨1, 1, 1, 1, 1, 1, 1, 1⟩
        ⟨⟨9, 9, 9, 9, 120⟩, 9, 9, 9, 9, true, true, true, true, 9, false, false, 7777, 8888, 50, 60⟩
        ⟨0, 0, 0, 0, 60⟩ ⟨2, 1, 0, 1, 60⟩).dda.total_steps ∧
    (dda_create ⟨1, 1, 1, 1, 1, 1, 1, 1⟩
        ⟨⟨9, 9, 9, 9, 120⟩, 9, 9, 9, 9, true, true, true, true, 9, false, false, 7777, 8888, 50, 60⟩
        ⟨0, 0, 0, 0, 60⟩ ⟨2, 1, 0, 1, 60⟩).dda.rampdown_steps =
      (dda_create ⟨1, 1, 1, 1, 1, 1, 1, 1⟩
        ⟨⟨9, 9, 9, 9, 120⟩, 9, 9, 9, 9, true, true, true, true, 9, false, false, 7777, 8888, 50, 60⟩
        ⟨0, 0, 0, 0, 60⟩ ⟨2, 1, 0, 1, 60⟩).dda.total_steps -
        (dda_create ⟨1, 1, 1, 1, 1, 1, 1, 1⟩
          ⟨⟨9, 9, 9, 9, 120⟩, 9, 9, 9, 9, true, true, true, true, 9, false, false, 7777, 8888, 50, 60⟩
          ⟨0, 0, 0, 0, 60⟩ ⟨2, 1, 0, 1, 60⟩).dda.rampup_steps) :=
  ⟨by decide, C5_ramp_lengths _ _ _ _ (by decide)⟩

/-- C6 counterexample: at planar distance 8 microns and extruder travel
1 micron (exactly 1/8), the claimed threshold "fold when the extruder
distance is at least 1/8 of the planar distance" holds, yet the code does
not fold (its test is strict: `distance < e_feed << 3`). -/
theorem C6_counterexample :
    ¬(fold_e ⟨8, 1, 1, 1, 1, 1, 1, 1⟩ 1 0 0 1 = true ↔
      planar_distance ⟨8, 1, 1, 1, 1, 1, 1, 1⟩ 1 0 0 / 8 ≤
        e_feed_um ⟨8, 1, 1, 1, 1, 1, 1, 1⟩ 1) := by decide

/-- C6 (amended): the extruder travel is folded into the move distance
exactly when eight times the extruder distance strictly exceeds the planar
distance, i.e. when the extruder distance is strictly more than 1/8 of the
planar distance. -/
theorem C6_fold_threshold (cfg : Config) (xd yd zd ed : Nat)
    (h : 8 * e_feed_um cfg ed < 4294967296) :
    fold_e cfg xd yd zd ed = true ↔
      planar_distance cfg xd yd zd < 8 * e_feed_um cfg ed := by
  unfold fold_e u32
  rw [Nat.mod_eq_of_lt h]
  simp

/-- Witness for C6 (amended) on a pure-extrusion move. -/
theorem C6_witness :
    8 * e_feed_um ⟨1, 1, 1, 1, 1, 1, 1, 1⟩ 1 < 4294967296 ∧
    (fold_e ⟨1, 1, 1, 1, 1, 1, 1, 1⟩ 0 0 0 1 = true ↔
      planar_distance ⟨1, 1, 1, 1, 1, 1, 1, 1⟩ 0 0 0 <
        8 * e_feed_um ⟨1, 1, 1, 1, 1, 1, 1, 1⟩ 1) :=
  ⟨by decide, C6_fold_threshold _ 0 0 0 1 (by decide)⟩

/-- Activation of a nullmove: only the feed rate is updated. -/
theorem dda_start_null (d : DDA) (ms : MOVE_STATE) (pos : TARGET)
    (h : d.nullmove = true) :
    dda_start d ms pos =
      { dda := d, ms := ms, pos := { pos with F := d.endpoint.F },
        timer := none, dirs_set := false, z_enabled := false } := by
  unfold dda_start
  simp [h]

/-- C7: a planned move whose target equals the planning origin on all four
axes is marked nullmove; activating it updates only the feed rate, the
record never becomes live, no timer is programmed, no direction or driver
output is touched, and the move state is unchanged (so no pulse can ever be
emitted for it). -/
theorem C7_nullmove_only_feed (cfg : Config) (prev : DDA) (sp t : TARGET)
    (ms : MOVE_STATE) (pos : TARGET) (h1 : t.X = sp.X) (h2 : t.Y = sp.Y)
    (h3 : t.Z = sp.Z) (h4 : t.E = sp.E) : C7_concl cfg prev sp t ms pos := by
  have hx0 : (t.X - sp.X).natAbs = 0 := by rw [h1]; simp
  have hy0 : (t.Y - sp.Y).natAbs = 0 := by rw [h2]; simp
  have hz0 : (t.Z - sp.Z).natAbs = 0 := by rw [h3]; simp
  have he0 : (t.E - sp.E).natAbs = 0 := by rw [h4]; simp
  have htot : total_steps_of (t.X - sp.X).natAbs (t.Y - sp.Y).natAbs
      (t.Z - sp.Z).natAbs (t.E - sp.E).natAbs = 0 := by
    rw [hx0, hy0, hz0, he0]
    rfl
  simp only [C7_concl]
  rw [dda_create_eq_null cfg prev sp t htot]
  dsimp only
  rw [dda_start_null _ _ _ rfl]
  simp [hx0, hy0, hz0, he0]

/-- Witness for C7: same position, changed feed rate. -/
theorem C7_witness :
    (⟨1, 2, 3, 4, 90⟩ : TARGET).X = (⟨1, 2, 3, 4, 60⟩ : TARGET).X ∧
    (⟨1, 2, 3, 4, 90⟩ : TARGET).Y = (⟨1, 2, 3, 4, 60⟩ : TARGET).Y ∧
    (⟨1, 2, 3, 4, 90⟩ : TARGET).Z = (⟨1, 2, 3, 4, 60⟩ : TARGET).Z ∧
    (⟨1, 2, 3, 4, 90⟩ : TARGET).E = (⟨1, 2, 3, 4, 60⟩ : TARGET).E ∧
    C7_concl ⟨1, 1, 1, 1, 1, 1, 1, 1⟩
      ⟨⟨9, 9, 9, 9, 120⟩, 9, 9, 9, 9, true, true, true, true, 9, false, false, 7777, 8888, 50, 60⟩
      ⟨1, 2, 3, 4, 60⟩ ⟨1, 2, 3, 4, 90⟩
      ⟨-1, -1, -1, -1, 2, 1, 0, 1, 5, 5, 6480896⟩ ⟨0, 0, 0, 0, 60⟩ :=
  ⟨rfl, rfl, rfl, rfl,
    C7_nullmove_only_feed _ _ _ _ _ _ rfl rfl rfl rfl⟩

/-- C9 counterexample: in the relative-E build the planner resets the
startpoint's extruder coordinate, so after planning a move to E = 5 the
startpoint does not equal the target on E. -/
theorem C9_counterexample :
    (dda_create ⟨1, 1, 1, 1, 1, 1, 1, 1⟩
        ⟨⟨9, 9, 9, 9, 120⟩, 9, 9, 9, 9, true, true, true, true, 9, false, false, 7777, 8888, 50, 60⟩
        ⟨0, 0, 0, 0, 60⟩
        ⟨0, 0, 0, 5, 60⟩).startpoint.E ≠ (⟨0, 0, 0, 5, 60⟩ : TARGET).E := by
  decide

/-- C9 (amended): planning a move leaves `startpoint` equal to the target on
X, Y, Z and the feed rate, while the extruder coordinate is reset to zero
(relative-E build, `E_ABSOLUTE` undefined). -/
theorem C9_startpoint_update (cfg : Config) (prev : DDA) (sp t : TARGET) :
    (dda_create cfg prev sp t).startpoint.X = t.X ∧
    (dda_create cfg prev sp t).startpoint.Y = t.Y ∧
    (dda_create cfg prev sp t).startpoint.Z = t.Z ∧
    (dda_create cfg prev sp t).startpoint.F = t.F ∧
    (dda_create cfg prev sp t).startpoint.E = 0 := by
  simp only [dda_create]
  split <;> exact ⟨rfl, rfl, rfl, rfl, rfl⟩

/-- C10: while a record is live, the position tracker sets
`current_position.E` to the raw remaining extruder step count (relative-E
build) instead of deriving it from the endpoint and direction as it does for
X, Y and Z. -/
theorem C10_relative_e_position (dda : DDA) (ms : MOVE_STATE) (pos : TARGET)
    (h : dda.live = true) : C10_concl dda ms pos := by
  simp only [C10_concl]
  unfold update_position
  simp [h]

/-- Witness for C10 on a live record mid-move. -/
theorem C10_witness :
    (⟨⟨10, 5, 0, 7, 60⟩, 10, 5, 0, 7, true, false, true, true, 10, false,
        true, 6480896, 4096000, 2, 8⟩ : DDA).live = true ∧
    C10_concl
      ⟨⟨10, 5, 0, 7, 60⟩, 10, 5, 0, 7, true, false, true, true, 10, false,
        true, 6480896, 4096000, 2, 8⟩
      ⟨-5, -5, -5, -5, 4, 2, 0, 3, 6, 25, 3888538⟩ ⟨0, 0, 0, 0, 60⟩ :=
  ⟨by decide, C10_relative_e_position _ _ _ (by decide)⟩

/-! Bounds on the modelled distance approximations. -/

/-- The 2D approximation dominates its first component. -/
theorem approx2d_ge_left (a b : Nat) : a ≤ approx_distance_2d a b := by
  unfold approx_distance_2d
  calc a = Nat.sqrt (a * a) := (Nat.sqrt_eq a).symm
    _ ≤ Nat.sqrt (a * a + b * b) := Nat.sqrt_le_sqrt (Nat.le_add_right _ _)

/-- The 2D approximation dominates its second component. -/
theorem approx2d_ge_right (a b : Nat) : b ≤ approx_distance_2d a b := by
  unfold approx_distance_2d
  calc b = Nat.sqrt (b * b) := (Nat.sqrt_eq b).symm
    _ ≤ Nat.sqrt (a * a + b * b) := Nat.sqrt_le_sqrt (Nat.le_add_left _ _)

/-- The 2D approximation is at most the sum of its components. -/
theorem approx2d_le_add (a b : Nat) : approx_distance_2d a b ≤ a + b := by
  unfold approx_distance_2d
  calc Nat.sqrt (a * a + b * b) ≤ Nat.sqrt ((a + b) * (a + b)) :=
      Nat.sqrt_le_sqrt (by nlinarith)
    _ = a + b := Nat.sqrt_eq _

/-- The 3D approximation dominates each component. -/
theorem approx3d_ge (a b c : Nat) : a ≤ approx_distance_3d a b c ∧
    b ≤ approx_distance_3d a b c ∧ c ≤ approx_distance_3d a b c := by
  unfold approx_distance_3d
  refine ⟨?_, ?_, ?_⟩
  · calc a = Nat.sqrt (a * a) := (Nat.sqrt_eq a).symm
      _ ≤ Nat.sqrt (a * a + b * b + c * c) := Nat.sqrt_le_sqrt (by omega)
  · calc b = Nat.sqrt (b * b) := (Nat.sqrt_eq b).symm
      _ ≤ Nat.sqrt (a * a + b * b + c * c) := Nat.sqrt_le_sqrt (by omega)
  · calc c = Nat.sqrt (c * c) := (Nat.sqrt_eq c).symm
      _ ≤ Nat.sqrt (a * a + b * b + c * c) := Nat.sqrt_le_sqrt (by omega)

/-- The 3D approximation is at most the sum of its components. -/
theorem approx3d_le_add (a b c : Nat) :
    approx_distance_3d a b c ≤ a + b + c := by
  unfold approx_distance_3d
  calc Nat.sqrt (a * a + b * b + c * c) ≤
      Nat.sqrt ((a + b + c) * (a + b + c)) :=
      Nat.sqrt_le_sqrt (by nlinarith)
    _ = a + b + c := Nat.sqrt_eq _

/-- Unit conversion without wrap-around. -/
theorem steps_to_um_eq (um n : Nat) (h : um * n < 4294967296) :
    steps_to_um um n = um * n := by
  unfold steps_to_um u32
  exact Nat.mod_eq_of_lt h

/-- A positive planar distance as soon as one of X, Y, Z moves, under a sane
configuration. -/
theorem planar_pos (cfg : Config) (xd yd zd : Nat)
    (hux : 1 ≤ cfg.um_per_step_X) (huy : 1 ≤ cfg.um_per_step_Y)
    (huz : 1 ≤ cfg.um_per_step_Z)
    (hwx : cfg.um_per_step_X * xd < 4294967296)
    (hwy : cfg.um_per_step_Y * yd < 4294967296)
    (hwz : cfg.um_per_step_Z * zd < 4294967296)
    (hnz : xd ≠ 0 ∨ yd ≠ 0 ∨ zd ≠ 0) :
    1 ≤ planar_distance cfg xd yd zd := by
  have hsx := steps_to_um_eq cfg.um_per_step_X xd hwx
  have hsy := steps_to_um_eq cfg.um_per_step_Y yd hwy
  have hsz := steps_to_um_eq cfg.um_per_step_Z zd hwz
  unfold planar_distance
  by_cases hz0 : zd = 0
  · rw [if_pos hz0]
    by_cases hx0 : xd = 0
    · rw [if_pos hx0]
      have hy0 : yd ≠ 0 := by tauto
      rw [hsy]
      exact Nat.one_le_iff_ne_zero.mpr (Nat.mul_ne_zero (by omega) hy0)
    · by_cases hy0 : yd = 0
      · rw [if_neg hx0, if_pos hy0, hsx]
        exact Nat.one_le_iff_ne_zero.mpr (Nat.mul_ne_zero (by omega) hx0)
      · rw [if_neg hx0, if_neg hy0]
        calc 1 ≤ steps_to_um cfg.um_per_step_X xd := by
              rw [hsx]
              exact Nat.one_le_iff_ne_zero.mpr
                (Nat.mul_ne_zero (by omega) hx0)
          _ ≤ _ := approx2d_ge_left _ _
  · rw [if_neg hz0]
    by_cases hxy : xd = 0 ∧ yd = 0
    · rw [if_pos hxy, hsz]
      exact Nat.one_le_iff_ne_zero.mpr (Nat.mul_ne_zero (by omega) hz0)
    · rw [if_neg hxy]
      calc 1 ≤ steps_to_um cfg.um_per_step_Z zd := by
            rw [hsz]
            exact Nat.one_le_iff_ne_zero.mpr (Nat.mul_ne_zero (by omega) hz0)
        _ ≤ _ := (approx3d_ge _ _ _).2.2

/-- The planar distance is bounded by the sum of the axis travels. -/
theorem planar_le (cfg : Config) (xd yd zd : Nat)
    (hwx : cfg.um_per_step_X * xd < 4294967296)
    (hwy : cfg.um_per_step_Y * yd < 4294967296)
    (hwz : cfg.um_per_step_Z * zd < 4294967296) :
    planar_distance cfg xd yd zd ≤ cfg.um_per_step_X * xd +
      cfg.um_per_step_Y * yd + cfg.um_per_step_Z * zd := by
  have hsx := steps_to_um_eq cfg.um_per_step_X xd hwx
  have hsy := steps_to_um_eq cfg.um_per_step_Y yd hwy
  have hsz := steps_to_um_eq cfg.um_per_step_Z zd hwz
  unfold planar_distance
  rw [hsx, hsy, hsz]
  split_ifs
  · omega
  · omega
  · have := approx2d_le_add (cfg.um_per_step_X * xd) (cfg.um_per_step_Y * yd)
    omega
  · omega
  · have := approx3d_le_add (cfg.um_per_step_X * xd) (cfg.um_per_step_Y * yd)
      (cfg.um_per_step_Z * zd)
    omega

/-- The move distance is positive for every non-null move, under a sane
configuration. -/
theorem distance_pos (cfg : Config) (xd yd zd ed : Nat)
    (hux : 1 ≤ cfg.um_per_step_X) (huy : 1 ≤ cfg.um_per_step_Y)
    (huz : 1 ≤ cfg.um_per_step_Z) (hue : 1 ≤ cfg.um_per_step_E)
    (hwx : cfg.um_per_step_X * xd < 536870912)
    (hwy : cfg.um_per_step_Y * yd < 536870912)
    (hwz : cfg.um_per_step_Z * zd < 536870912)
    (hwe : cfg.um_per_step_E * ed < 536870912)
    (hnz : total_steps_of xd yd zd ed ≠ 0) :
    1 ≤ distance_um cfg xd yd zd ed := by
  have hef : e_feed_um cfg ed = cfg.um_per_step_E * ed := by
    unfold e_feed_um
    exact steps_to_um_eq _ _ (by omega)
  by_cases hxyz : xd = 0 ∧ yd = 0 ∧ zd = 0
  · obtain ⟨hx0, hy0, hz0⟩ := hxyz
    have hed : ed ≠ 0 := by
      intro h0
      apply hnz
      rw [hx0, hy0, hz0, h0]
      rfl
    have hef1 : 1 ≤ e_feed_um cfg ed := by
      rw [hef]
      exact Nat.one_le_iff_ne_zero.mpr (Nat.mul_ne_zero (by omega) hed)
    have hp0 : planar_distance cfg xd yd zd = 0 := by
      rw [hx0, hy0, hz0]
      simp [planar_distance, steps_to_um, u32]
    have hfold : fold_e cfg xd yd zd ed = true := by
      unfold fold_e u32
      rw [hp0, Nat.mod_eq_of_lt (by omega)]
      simp only [decide_eq_true_eq]
      omega
    unfold distance_um
    rw [if_pos hfold]
    calc 1 ≤ e_feed_um cfg ed := hef1
      _ ≤ _ := approx2d_ge_right _ _
  · have hnz3 : xd ≠ 0 ∨ yd ≠ 0 ∨ zd ≠ 0 := by tauto
    have hp1 : 1 ≤ planar_distance cfg xd yd zd :=
      planar_pos cfg xd yd zd hux huy huz (by omega) (by omega) (by omega)
        hnz3
    unfold distance_um
    split
    · calc 1 ≤ planar_distance cfg xd yd zd := hp1
        _ ≤ _ := approx2d_ge_left _ _
    · exact hp1

/-- The move distance is bounded by the sum of all four axis travels. -/
theorem distance_le (cfg : Config) (xd yd zd ed : Nat)
    (hwx : cfg.um_per_step_X * xd < 4294967296)
    (hwy : cfg.um_per_step_Y * yd < 4294967296)
    (hwz : cfg.um_per_step_Z * zd < 4294967296)
    (hwe : cfg.um_per_step_E * ed < 4294967296) :
    distance_um cfg xd yd zd ed ≤ cfg.um_per_step_X * xd +
      cfg.um_per_step_Y * yd + cfg.um_per_step_Z * zd +
      cfg.um_per_step_E * ed := by
  have hef : e_feed_um cfg ed = cfg.um_per_step_E * ed := by
    unfold e_feed_um
    exact steps_to_um_eq _ _ hwe
  have hpl := planar_le cfg xd yd zd hwx hwy hwz
  unfold distance_um
  rw [hef]
  split
  · have := approx2d_le_add (planar_distance cfg xd yd zd)
      (cfg.um_per_step_E * ed)
    omega
  · omega

/-- The limiting tick count dominates each axis's contribution. -/
theorem limiting_ge (cfg : Config) (xd yd zd ed F : Nat) :
    u32 (xd * cfg.min_clocks_X) ≤ limiting_ticks cfg xd yd zd ed F ∧
    u32 (yd * cfg.min_clocks_Y) ≤ limiting_ticks cfg xd yd zd ed F ∧
    u32 (zd * cfg.min_clocks_Z) ≤ limiting_ticks cfg xd yd zd ed F ∧
    u32 (ed * cfg.min_clocks_E) ≤ limiting_ticks cfg xd yd zd ed F := by
  simp only [limiting_ticks]
  split_ifs <;> omega

/-- C8: for every non-null planner input with a sane (pre-validated)
configuration and feed rate, every divisor reached by the timing computation
is nonzero: the move distance, the `c_limit` quotient, the integer square
root in the `c0` formula and the staged ramp-length divisor. -/
theorem C8_no_division_by_zero (cfg : Config) (sp t : TARGET)
    (hs : C8_sane cfg sp t)
    (h : total_steps_of (t.X - sp.X).natAbs (t.Y - sp.Y).natAbs
      (t.Z - sp.Z).natAbs (t.E - sp.E).natAbs ≠ 0) :
    C8_concl cfg sp t := by
  obtain ⟨hux, huy, huz, hue, hmx, hmy, hmz, hme, hsum, hwx, hwy, hwz, hwe,
    hcx, hcy, hcz, hce, h12500, hF⟩ := hs
  have hTpos : 0 < total_steps_of (t.X - sp.X).natAbs (t.Y - sp.Y).natAbs
      (t.Z - sp.Z).natAbs (t.E - sp.E).natAbs := Nat.pos_of_ne_zero h
  have hdp := distance_pos cfg (t.X - sp.X).natAbs (t.Y - sp.Y).natAbs
    (t.Z - sp.Z).natAbs (t.E - sp.E).natAbs hux huy huz hue hwx hwy hwz hwe h
  have hles := deltas_le_total (t.X - sp.X).natAbs (t.Y - sp.Y).natAbs
    (t.Z - sp.Z).natAbs (t.E - sp.E).natAbs
  simp only [C8_concl]
  refine ⟨by omega, ?_, ?_, ?_⟩
  · rcases total_steps_dominant (t.X - sp.X).natAbs (t.Y - sp.Y).natAbs
        (t.Z - sp.Z).natAbs (t.E - sp.E).natAbs with hd | hd | hd | hd
    · have hge := (limiting_ge cfg (t.X - sp.X).natAbs (t.Y - sp.Y).natAbs
        (t.Z - sp.Z).natAbs (t.E - sp.E).natAbs t.F).1
      rw [show u32 ((t.X - sp.X).natAbs * cfg.min_clocks_X) =
          (t.X - sp.X).natAbs * cfg.min_clocks_X from Nat.mod_eq_of_lt hcx]
        at hge
      have hbig : (t.X - sp.X).natAbs * 1 ≤
          (t.X - sp.X).natAbs * cfg.min_clocks_X :=
        Nat.mul_le_mul_left _ hmx
      have h1 : 1 ≤ c_limit_of cfg (t.X - sp.X).natAbs (t.Y - sp.Y).natAbs
          (t.Z - sp.Z).natAbs (t.E - sp.E).natAbs t.F := by
        unfold c_limit_of
        rw [Nat.one_le_div_iff hTpos]
        omega
      omega
    · have hge := (limiting_ge cfg (t.X - sp.X).natAbs (t.Y - sp.Y).natAbs
        (t.Z - sp.Z).natAbs (t.E - sp.E).natAbs t.F).2.1
      rw [show u32 ((t.Y - sp.Y).natAbs * cfg.min_clocks_Y) =
          (t.Y - sp.Y).natAbs * cfg.min_clocks_Y from Nat.mod_eq_of_lt hcy]
        at hge
      have hbig : (t.Y - sp.Y).natAbs * 1 ≤
          (t.Y - sp.Y).natAbs * cfg.min_clocks_Y :=
        Nat.mul_le_mul_left _ hmy
      have h1 : 1 ≤ c_limit_of cfg (t.X - sp.X).natAbs (t.Y - sp.Y).natAbs
          (t.Z - sp.Z).natAbs (t.E - sp.E).natAbs t.F := by
        unfold c_limit_of
        rw [Nat.one_le_div_iff hTpos]
        omega
      omega
    · have hge := (limiting_ge cfg (t.X - sp.X).natAbs (t.Y - sp.Y).natAbs
        (t.Z - sp.Z).natAbs (t.E - sp.E).natAbs t.F).2.2.1
      rw [show u32 ((t.Z - sp.Z).natAbs * cfg.min_clocks_Z) =
          (t.Z - sp.Z).natAbs * cfg.min_clocks_Z from Nat.mod_eq_of_lt hcz]
        at hge
      have hbig : (t.Z - sp.Z).natAbs * 1 ≤
          (t.Z - sp.Z).natAbs * cfg.min_clocks_Z :=
        Nat.mul_le_mul_left _ hmz
      have h1 : 1 ≤ c_limit_of cfg (t.X - sp.X).natAbs (t.Y - sp.Y).natAbs
          (t.Z - sp.Z).natAbs (t.E - sp.E).natAbs t.F := by
        unfold c_limit_of
        rw [Nat.one_le_div_iff hTpos]
        omega
      omega
    · have hge := (limiting_ge cfg (t.X - sp.X).natAbs (t.Y - sp.Y).natAbs
        (t.Z - sp.Z).natAbs (t.E - sp.E).natAbs t.F).2.2.2
      rw [show u32 ((t.E - sp.E).natAbs * cfg.min_clocks_E) =
          (t.E - sp.E).natAbs * cfg.min_clocks_E from Nat.mod_eq_of_lt hce]
        at hge
      have hbig : (t.E - sp.E).natAbs * 1 ≤
          (t.E - sp.E).natAbs * cfg.min_clocks_E :=
        Nat.mul_le_mul_left _ hme
      have h1 : 1 ≤ c_limit_of cfg (t.X - sp.X).natAbs (t.Y - sp.Y).natAbs
          (t.Z - sp.Z).natAbs (t.E - sp.E).natAbs t.F := by
        unfold c_limit_of
        rw [Nat.one_le_div_iff hTpos]
        omega
      omega
  · have hdl := distance_le cfg (t.X - sp.X).natAbs (t.Y - sp.Y).natAbs
      (t.Z - sp.Z).natAbs (t.E - sp.E).natAbs (by omega) (by omega)
      (by omega) (by omega)
    have hb1 : cfg.um_per_step_X * (t.X - sp.X).natAbs ≤
        cfg.um_per_step_X * total_steps_of (t.X - sp.X).natAbs
          (t.Y - sp.Y).natAbs (t.Z - sp.Z).natAbs (t.E - sp.E).natAbs :=
      Nat.mul_le_mul_left _ hles.1
    have hb2 : cfg.um_per_step_Y * (t.Y - sp.Y).natAbs ≤
        cfg.um_per_step_Y * total_steps_of (t.X - sp.X).natAbs
          (t.Y - sp.Y).natAbs (t.Z - sp.Z).natAbs (t.E - sp.E).natAbs :=
      Nat.mul_le_mul_left _ hles.2.1
    have hb3 : cfg.um_per_step_Z * (t.Z - sp.Z).natAbs ≤
        cfg.um_per_step_Z * total_steps_of (t.X - sp.X).natAbs
          (t.Y - sp.Y).natAbs (t.Z - sp.Z).natAbs (t.E - sp.E).natAbs :=
      Nat.mul_le_mul_left _ hles.2.2.1
    have hb4 : cfg.um_per_step_E * (t.E - sp.E).natAbs ≤
        cfg.um_per_step_E * total_steps_of (t.X - sp.X).natAbs
          (t.Y - sp.Y).natAbs (t.Z - sp.Z).natAbs (t.E - sp.E).natAbs :=
      Nat.mul_le_mul_left _ hles.2.2.2
    have hb5 : (cfg.um_per_step_X + cfg.um_per_step_Y + cfg.um_per_step_Z +
        cfg.um_per_step_E) * total_steps_of (t.X - sp.X).natAbs
          (t.Y - sp.Y).natAbs (t.Z - sp.Z).natAbs (t.E - sp.E).natAbs ≤
        400000 * total_steps_of (t.X - sp.X).natAbs (t.Y - sp.Y).natAbs
          (t.Z - sp.Z).natAbs (t.E - sp.E).natAbs :=
      Nat.mul_le_mul_right _ hsum
    have hb6 : (cfg.um_per_step_X + cfg.um_per_step_Y + cfg.um_per_step_Z +
        cfg.um_per_step_E) * total_steps_of (t.X - sp.X).natAbs
          (t.Y - sp.Y).natAbs (t.Z - sp.Z).natAbs (t.E - sp.E).natAbs =
        cfg.um_per_step_X * total_steps_of (t.X - sp.X).natAbs
          (t.Y - sp.Y).natAbs (t.Z - sp.Z).natAbs (t.E - sp.E).natAbs +
        cfg.um_per_step_Y * total_steps_of (t.X - sp.X).natAbs
          (t.Y - sp.Y).natAbs (t.Z - sp.Z).natAbs (t.E - sp.E).natAbs +
        cfg.um_per_step_Z * total_steps_of (t.X - sp.X).natAbs
          (t.Y - sp.Y).natAbs (t.Z - sp.Z).natAbs (t.E - sp.E).natAbs +
        cfg.um_per_step_E * total_steps_of (t.X - sp.X).natAbs
          (t.Y - sp.Y).natAbs (t.Z - sp.Z).natAbs (t.E - sp.E).natAbs := by
      ring
    have harg : 1 ≤ c0_sqrt_arg cfg (t.X - sp.X).natAbs (t.Y - sp.Y).natAbs
        (t.Z - sp.Z).natAbs (t.E - sp.E).natAbs := by
      unfold c0_sqrt_arg
      rw [Nat.one_le_div_iff (by omega)]
      omega
    unfold int_sqrt
    have := Nat.sqrt_pos.mpr (show 0 < c0_sqrt_arg cfg (t.X - sp.X).natAbs
      (t.Y - sp.Y).natAbs (t.Z - sp.Z).natAbs (t.E - sp.E).natAbs by omega)
    omega
  · unfold u32
    rw [Nat.mod_eq_of_lt h12500]
    have h1 : 12500 * 1 ≤ 12500 * total_steps_of (t.X - sp.X).natAbs
        (t.Y - sp.Y).natAbs (t.Z - sp.Z).natAbs (t.E - sp.E).natAbs :=
      Nat.mul_le_mul_left _ hTpos
    have h2 : 1 ≤ 12500 * total_steps_of (t.X - sp.X).natAbs
        (t.Y - sp.Y).natAbs (t.Z - sp.Z).natAbs (t.E - sp.E).natAbs / 64 :=
      (Nat.one_le_div_iff (by norm_num)).mpr (by omega)
    omega

/-- Witness for C8 on a concrete sane configuration and move. -/
theorem C8_witness :
    C8_sane ⟨1, 1, 1, 1, 1, 1, 1, 1⟩ ⟨0, 0, 0, 0, 60⟩ ⟨2, 1, 0, 1, 60⟩ ∧
    total_steps_of ((⟨2, 1, 0, 1, 60⟩ : TARGET).X -
        (⟨0, 0, 0, 0, 60⟩ : TARGET).X).natAbs
      ((⟨2, 1, 0, 1, 60⟩ : TARGET).Y - (⟨0, 0, 0, 0, 60⟩ : TARGET).Y).natAbs
      ((⟨2, 1, 0, 1, 60⟩ : TARGET).Z - (⟨0, 0, 0, 0, 60⟩ : TARGET).Z).natAbs
      ((⟨2, 1, 0, 1, 60⟩ : TARGET).E - (⟨0, 0, 0, 0, 60⟩ : TARGET).E).natAbs
      ≠ 0 ∧
    C8_concl ⟨1, 1, 1, 1, 1, 1, 1, 1⟩ ⟨0, 0, 0, 0, 60⟩ ⟨2, 1, 0, 1, 60⟩ :=
  ⟨by unfold C8_sane; decide, by decide,
    C8_no_division_by_zero _ _ _ (by unfold C8_sane; decide) (by decide)⟩
